import Mathlib

/-!
Shallow embedding of the DashReactGrid component
(`src/lib/components/DashReactGrid.react.js`, current version) together with
the cell parsers it uses (`NumberParser.js`, `DateUtilities.js`).

Modelling conventions:
* JavaScript primitive values stored in grid cells are modelled by `JSValue`
  (strings, finite numbers as rationals, `NaN`, booleans, `null`, `undefined`).
  Floating-point rounding plays no role in the verified claims, so finite
  numbers are idealised as rationals.
* The runtime locale `window.navigator.language` is fixed to `en-US`
  (the source's own default): group separator `","`, decimal point `"."`,
  ASCII digits, short date pattern `M/d/yy`.
* React state updates are modelled as pure state transformers on `GridState`.
  The rendered cell matrix (`setCells`) mirrors the data array for display
  only and is not part of the data model the claims talk about, so it is not
  carried in the state.
-/

namespace DashReactGrid

/-- A JavaScript primitive value as it appears in a grid data cell. -/
inductive JSValue where
  | vStr (s : String)
  | vNum (q : ℚ)
  | vNaN
  | vBool (b : Bool)
  | vNull
  | vUndefined
deriving DecidableEq, Repr

/-- JavaScript truthiness of a `JSValue` (`Boolean(v)`). -/
def JSValue.truthy : JSValue → Bool
  | .vStr s => !(s = "")
  | .vNum q => !(q = 0)
  | .vNaN => false
  | .vBool b => b
  | .vNull => false
  | .vUndefined => false

/-- JavaScript strict equality `===` on cell values: `NaN !== NaN`, all other
values compare structurally (distinct types are never `===`). -/
def jsStrictEq : JSValue → JSValue → Bool
  | .vNaN, _ => false
  | _, .vNaN => false
  | a, b => a == b

/-- JavaScript `a || b` on cell values. -/
def jsOr (a b : JSValue) : JSValue := if a.truthy then a else b

/-! ### String helpers (en-US locale) -/

/-- The whitespace characters recognised by `String.prototype.trim` that can
occur in clipboard text (ASCII subset; the exotic Unicode space classes are
not modelled). -/
def isJsWs (c : Char) : Bool := c = ' ' || c = '\t' || c = '\n' || c = '\r'

/-- JavaScript `text.trim()`. -/
def jsTrim (s : String) : String :=
  ⟨((s.data.dropWhile isJsWs).reverse.dropWhile isJsWs).reverse⟩

/-- ASCII lower-casing, as used by the case-insensitive checkbox regexes
(`/^(true|1|yes)$/i`). -/
def charToLower (c : Char) : Char :=
  if 'A' ≤ c ∧ c ≤ 'Z' then Char.ofNat (c.toNat + 32) else c

def jsToLower (s : String) : String := ⟨s.data.map charToLower⟩

/-- Remove the first occurrence of a character, as JavaScript
`String.prototype.replace` with a plain (non-regex, non-global) pattern. -/
def removeFirstChar (c : Char) : List Char → List Char
  | [] => []
  | x :: t => if x = c then t else x :: removeFirstChar c t

def isAsciiDigit (c : Char) : Bool := '0' ≤ c && c ≤ '9'

def digitVal (c : Char) : ℕ := c.toNat - '0'.toNat

def digitsToNat (l : List Char) : ℕ :=
  l.foldl (fun acc c => acc * 10 + digitVal c) 0

def digitChar (n : ℕ) : Char := Char.ofNat ('0'.toNat + n % 10)

/-- Two-digit zero-padded decimal rendering (for `en-CA` date strings). -/
def pad2 (n : ℕ) : String := ⟨[digitChar (n / 10), digitChar n]⟩

/-- Four-digit zero-padded decimal rendering (for `en-CA` date strings). -/
def pad4 (n : ℕ) : String :=
  ⟨[digitChar (n / 1000), digitChar (n / 100), digitChar (n / 10), digitChar n]⟩

/-- Decimal digits of a natural number (most significant first), without
going through `Nat.repr` so that kernel reduction stays cheap. -/
def natDigits (n : ℕ) : List Char :=
  if _h : n < 10 then [digitChar n]
  else natDigits (n / 10) ++ [digitChar n]
termination_by n
decreasing_by exact Nat.div_lt_self (by omega) (by omega)

def natToString (n : ℕ) : String := ⟨natDigits n⟩

/-- `Number.prototype.toLocaleString(locale, { useGrouping: false,
maximumFractionDigits: 17 })` for a finite number, idealised to rationals:
round half away from zero at 17 fraction digits, drop trailing zeros, no
grouping.  (JavaScript's shortest-double rendering differences are invisible
at this idealisation.) -/
def decimalString17 (q : ℚ) : String :=
  let neg := q < 0
  let a := |q|
  let r := (a * (10 : ℚ) ^ (17 : ℕ) + 1/2).floor.toNat
  let ip := r / 10 ^ (17 : ℕ)
  let fp := r % 10 ^ (17 : ℕ)
  let fracDigits := (List.replicate (17 - (natDigits fp).length) '0') ++ natDigits fp
  let fracTrimmed := (fracDigits.reverse.dropWhile (fun c => c = '0')).reverse
  (if neg then "-" else "") ++ natToString ip ++
    (if fracTrimmed = [] then "" else "." ++ ⟨fracTrimmed⟩)

/-- JavaScript `String(v)` coercion of a cell value. -/
def jsStringCoerce : JSValue → String
  | .vStr s => s
  | .vNum q => decimalString17 q
  | .vNaN => "NaN"
  | .vBool b => cond b "true" "false"
  | .vNull => "null"
  | .vUndefined => "undefined"

/-- Element conversion used by `Array.prototype.join`: like `String(v)` except
that `null` and `undefined` become the empty string. -/
def jsJoinStr : JSValue → String
  | .vNull => ""
  | .vUndefined => ""
  | v => jsStringCoerce v

/-! ### `Number(string)` (the `+string` coercion)

Modelled grammar: optional sign, decimal digits with optional fraction and
optional exponent.  The exotic cases (`Infinity`, hex/octal/binary literals,
numeric separators) are outside the modelled domain and map to `NaN`. -/

/-- Parse an optional exponent suffix; the input must be consumed fully. -/
def parseExponent : List Char → Option ℤ
  | [] => some 0
  | c :: t =>
    if c = 'e' || c = 'E' then
      let (sgn, t1) : ℤ × List Char :=
        match t with
        | '+' :: r => (1, r)
        | '-' :: r => (-1, r)
        | r => (1, r)
      let ds := t1.takeWhile isAsciiDigit
      if ds ≠ [] && t1.dropWhile isAsciiDigit = [] then
        some (sgn * (digitsToNat ds : ℤ))
      else none
    else none

/-- `Number(s)` on an already-trimmed, non-empty character list.
Returns `none` for `NaN`. -/
def jsStringToNumCore (cs : List Char) : Option ℚ :=
  let (sgn, cs1) : ℚ × List Char :=
    match cs with
    | '+' :: t => (1, t)
    | '-' :: t => (-1, t)
    | t => (1, t)
  let intDigits := cs1.takeWhile isAsciiDigit
  let rest1 := cs1.dropWhile isAsciiDigit
  let (fracDigits, rest2) : List Char × List Char :=
    match rest1 with
    | '.' :: t => (t.takeWhile isAsciiDigit, t.dropWhile isAsciiDigit)
    | r => ([], r)
  if intDigits = [] ∧ fracDigits = [] then none
  else
    match parseExponent rest2 with
    | none => none
    | some e =>
      let mant : ℚ := (digitsToNat intDigits : ℚ) +
        (digitsToNat fracDigits : ℚ) / (10 : ℚ) ^ fracDigits.length
      some (sgn * mant * (10 : ℚ) ^ e)

/-- `numberParser.parse` from `CustomNumberCell.js` at locale en-US: trim,
strip all group separators `","` (the decimal-point and numeral replacement
passes are the identity for en-US), then `parseFloat(string ? +string : NaN)`.
A failed parse yields `NaN`. -/
def numberParserParse (s : String) : JSValue :=
  let t := (jsTrim s).data.filter (fun c => !(c = ','))
  if t = [] then .vNaN
  else
    match jsStringToNumCore t with
    | some q => .vNum q
    | none => .vNaN

/-- `percentParser.parse` from `PercentCell.js` at locale en-US: trim, strip
group separators, strip the first `"%"` (the literal part is empty for
en-US), coerce with `Number`, and divide by 100; a failed parse yields
`NaN`. -/
def percentParserParse (s : String) : JSValue :=
  let t := removeFirstChar '%' ((jsTrim s).data.filter (fun c => !(c = ',')))
  if t = [] then .vNaN
  else
    match jsStringToNumCore t with
    | some q => .vNum (q / 100)
    | none => .vNaN

/-! ### Dates (`DateUtilities.js` / luxon, locale en-US, system zone UTC)

A calendar date is a triple `(year, month, day)`.  Luxon's `DateTime`
validity checking is modelled by `validDate`.  Timezone conversions play no
role for dates parsed in the local zone; the system zone is fixed to UTC. -/

def isLeapYear (y : ℤ) : Bool := (y % 4 = 0 && !(y % 100 = 0)) || y % 400 = 0

def daysInMonth (y : ℤ) (m : ℕ) : ℕ :=
  if m = 2 then (if isLeapYear y then 29 else 28)
  else if m = 4 || m = 6 || m = 9 || m = 11 then 30
  else 31

def validDate (y : ℤ) (m d : ℕ) : Bool :=
  1 ≤ m && m ≤ 12 && 1 ≤ d && d ≤ daysInMonth y m

/-- A parsed calendar date. -/
structure DateYMD where
  year : ℤ
  month : ℕ
  day : ℕ
deriving DecidableEq, Repr

/-- `DateTime.fromFormat(text, shortPattern('en-US'))`: the probe-derived
short pattern for en-US is `MM/dd/yy`; luxon maps a two-digit year through
its default cutoff (years below 60 are 20xx, the rest 19xx). -/
def fromFormatShortEnUS : List Char → Option DateYMD
  | [m1, m2, '/', d1, d2, '/', y1, y2] =>
    if isAsciiDigit m1 && isAsciiDigit m2 && isAsciiDigit d1 && isAsciiDigit d2 &&
       isAsciiDigit y1 && isAsciiDigit y2 then
      let m := digitsToNat [m1, m2]
      let d := digitsToNat [d1, d2]
      let yy := digitsToNat [y1, y2]
      let y : ℤ := if yy < 60 then 2000 + yy else 1900 + yy
      if validDate y m d then some ⟨y, m, d⟩ else none
    else none
  | _ => none

/-- `DateTime.fromFormat(text, "yyyy-MM-dd'T'HH:mm:ss.SSSZZ")`.  Only the
`±hh:mm` offset form is modelled and the offset is not applied (the claims
never reach this branch with a non-zero offset). -/
def fromFormatUTCEnUS : List Char → Option DateYMD
  | [y1, y2, y3, y4, '-', m1, m2, '-', d1, d2, 'T', h1, h2, ':', n1, n2, ':',
     s1, s2, '.', f1, f2, f3, sgn, o1, o2, ':', o3, o4] =>
    if ([y1, y2, y3, y4, m1, m2, d1, d2, h1, h2, n1, n2, s1, s2, f1, f2, f3,
         o1, o2, o3, o4].all isAsciiDigit) && (sgn = '+' || sgn = '-') then
      let y : ℤ := digitsToNat [y1, y2, y3, y4]
      let m := digitsToNat [m1, m2]
      let d := digitsToNat [d1, d2]
      if validDate y m d && digitsToNat [h1, h2] ≤ 23 && digitsToNat [n1, n2] ≤ 59 &&
         digitsToNat [s1, s2] ≤ 59 && digitsToNat [o1, o2] ≤ 14 && digitsToNat [o3, o4] ≤ 59 then
        some ⟨y, m, d⟩
      else none
    else none
  | _ => none

/-- `DateTime.fromISO(text)`, restricted to the plain `yyyy-MM-dd` calendar
form (the only ISO shape the component itself produces and stores). -/
def fromISOModel : List Char → Option DateYMD
  | [y1, y2, y3, y4, '-', m1, m2, '-', d1, d2] =>
    if [y1, y2, y3, y4, m1, m2, d1, d2].all isAsciiDigit then
      let y : ℤ := digitsToNat [y1, y2, y3, y4]
      let m := digitsToNat [m1, m2]
      let d := digitsToNat [d1, d2]
      if validDate y m d then some ⟨y, m, d⟩ else none
    else none
  | _ => none

/-- `parseLocaleDate(text, locale)` from `DateUtilities.js`: try the locale's
short pattern, then the UTC pattern, then ISO; `null` when all fail. -/
def parseLocaleDate (s : String) : Option DateYMD :=
  (fromFormatShortEnUS s.data).orElse fun _ =>
    (fromFormatUTCEnUS s.data).orElse fun _ => fromISOModel s.data

/-- `d.toLocaleDateString('en-CA')` — the `yyyy-mm-dd` rendering of a date
(`slice(0,10)` is the identity on it). -/
def formatEnCA (d : DateYMD) : String :=
  pad4 d.year.toNat ++ "-" ++ pad2 d.month ++ "-" ++ pad2 d.day

/-- The epoch date produced by `new Date(null)` rendered by
`toLocaleDateString('en-CA')` in a UTC (or east-of-Greenwich) system zone. -/
def epochDateString : String := "1970-01-01"

/-- Parse a stored `yyyy-mm-dd` data value back into a date
(`new Date(value)` for the strings this component stores). -/
def parseYMD (s : String) : Option DateYMD := fromISOModel s.data

/-! ### Columns and cells -/

/-- One entry of a dropdown column's `values` array. -/
structure DropdownOption where
  label : String
  value : JSValue
deriving DecidableEq, Repr

/-- The cell type of a column (`column.type`); `other` stands for any string
that matches none of the recognised cases and falls to the `default`
branches. -/
inductive ColType where
  | text
  | number
  | customnumber
  | percent
  | date
  | checkbox
  | dropdown
  | other
deriving DecidableEq, Repr

/-- A column definition, restricted to the fields the data logic reads
(styling and width are presentation-only). -/
structure Column where
  columnId : String
  title : String
  type : ColType
  values : List DropdownOption := []
deriving DecidableEq, Repr

instance : Inhabited Column := ⟨⟨"", "", .text, []⟩⟩

def colAt (cols : List Column) (i : ℕ) : Column := cols.getD i default

/-- The `columnLookup` map: `columnId → index`, built by successive
`Map.set`, so for duplicated ids the **last** matching index wins. -/
def columnLookup (cols : List Column) (cid : String) : Option ℕ :=
  match cols with
  | [] => none
  | c :: rest =>
    match columnLookup rest cid with
    | some i => some (i + 1)
    | none => if c.columnId = cid then some 0 else none

/-- A ReactGrid cell object, restricted to the data-bearing fields.  A `none`
field models a missing (`undefined`) or `null` JavaScript field. -/
structure Cell where
  text : Option String := none
  value : Option JSValue := none
  date : Option DateYMD := none
  checked : Option Bool := none
  selectedValue : Option JSValue := none
deriving DecidableEq, Repr

/-- `getCellDataByType(type, cell)`: extract the stored data value from a
cell according to the column type.  For a `date` cell the source formats
`cell.date` as `yyyy-mm-dd` via `toLocaleDateString('en-CA')`; a missing
date would throw in JavaScript and is mapped to `undefined` here (no claim
reaches that case).  The `default` branch is the chain
`cell.text || cell.value || cell.date || cell.checked || ''`. -/
def getCellDataByType (ty : ColType) (cell : Cell) : JSValue :=
  match ty with
  | .text =>
    match cell.text with
    | some s => .vStr s
    | none => .vUndefined
  | .number | .customnumber | .percent => cell.value.getD .vUndefined
  | .date =>
    match cell.date with
    | some d => .vStr (formatEnCA d)
    | none => .vUndefined
  | .checkbox =>
    match cell.checked with
    | some b => .vBool b
    | none => .vUndefined
  | .dropdown => cell.selectedValue.getD .vUndefined
  | .other =>
    jsOr (match cell.text with | some s => .vStr s | none => .vUndefined)
      (jsOr (cell.value.getD .vUndefined)
        (jsOr (match cell.date with | some d => .vStr (formatEnCA d) | none => .vUndefined)
          (jsOr (match cell.checked with | some b => .vBool b | none => .vUndefined)
            (.vStr ""))))

/-- `createCell(column, value, ...)`, restricted to the data-bearing fields
(styles, formats and the dropdown `isOpen` flag are presentation state).
For a `date` column, `new Date(value)` succeeds on the `yyyy-mm-dd` strings
this component stores; other value shapes are outside the modelled domain
and yield a missing date. -/
def createCell (col : Column) (v : JSValue) : Cell :=
  match col.type with
  | .text => { text := some (jsStringCoerce (jsOr v (.vStr ""))) }
  | .number | .customnumber => { value := some v }
  | .percent => { value := some v }
  | .date =>
    { date := if v.truthy then (match v with | .vStr s => parseYMD s | _ => none) else none }
  | .checkbox => { checked := some v.truthy }
  | .dropdown =>
    { selectedValue := some v
      text := some (((col.values.find? fun o => jsStrictEq o.value v).map
        DropdownOption.label).getD "") }
  | .other => { text := some (jsStringCoerce (jsOr v (.vStr ""))) }

/-- `parseToValue(text, col)`: coerce pasted text to a column-typed value. -/
def parseToValue (text : String) (col : Column) : JSValue :=
  let t := jsTrim text
  match col.type with
  | .number | .customnumber => numberParserParse t
  | .percent => percentParserParse t
  | .date =>
    match parseLocaleDate t with
    | some d => .vStr (formatEnCA d)
    | none => .vStr epochDateString
  | .checkbox =>
    if jsToLower t = "true" || jsToLower t = "1" || jsToLower t = "yes" then .vBool true
    else if jsToLower t = "false" || jsToLower t = "0" || jsToLower t = "no" then .vBool false
    else .vNull
  | .dropdown =>
    if (col.values.map DropdownOption.label).contains t then
      match col.values.find? fun o => o.label = t with
      | some o => jsOr o.value (.vStr "")
      | none => .vStr ""
    else .vNull
  | _ => .vStr t

/-- `getValueAsString(col, value)`: the per-type string form used when
serialising a range to the clipboard.  The `date` branch returns the stored
value unchanged (it may be a non-string, converted later by
`Array.prototype.join`), hence the `JSValue` result type. -/
def getValueAsString (col : Column) (v : JSValue) : JSValue :=
  match col.type with
  | .number | .customnumber | .percent =>
    .vStr (match v with
      | .vNull => ""
      | .vUndefined => ""
      | .vNum q => let s := decimalString17 q; if s = "" then "" else s
      | .vNaN => "NaN"
      | .vStr s => s
      | .vBool b => cond b "true" "false")
  | .date => v
  | .checkbox => .vStr (jsStringCoerce v)
  | .dropdown =>
    .vStr (jsStringCoerce (.vStr (((col.values.find? fun o => jsStrictEq o.value v).map
      DropdownOption.label).getD "")))
  | _ => .vStr (jsStringCoerce v)

/-! ### The 2-D data array -/

/-- The 2-D grid data: a list of rows of cell values. -/
abbrev GridData := List (List JSValue)

/-- Read the cell at `(r, c)`; out-of-range reads give `undefined` as in
JavaScript. -/
def getCell (d : GridData) (r c : ℕ) : JSValue := (d.getD r []).getD c .vUndefined

/-- JavaScript array element assignment `l[i] = v`: in range it replaces, out
of range it extends the array, the holes reading back as `undefined`. -/
def jsSetArr (l : List JSValue) (i : ℕ) (v : JSValue) : List JSValue :=
  if i < l.length then l.set i v
  else (l ++ List.replicate (i - l.length) .vUndefined) ++ [v]

/-- `newData[rowId] = [...newData[rowId]]; newData[rowId][colIdx] = v` —
replace one cell, copying the row.  (All call sites guarantee
`r < d.length`; `List.set` is a no-op otherwise.) -/
def setCell (d : GridData) (r c : ℕ) (v : JSValue) : GridData :=
  d.set r (jsSetArr (d.getD r []) c v)

/-- Every row has exactly `n` entries (the spec's "row length matches column
count" invariant). -/
def RowsWF (n : ℕ) (d : GridData) : Prop := ∀ row ∈ d, row.length = n

instance (n : ℕ) (d : GridData) : Decidable (RowsWF n d) :=
  inferInstanceAs (Decidable (∀ row ∈ d, row.length = n))

/-- `row.some(v => v)` — the row has some truthy entry. -/
def rowTruthy (row : List JSValue) : Bool := row.any JSValue.truthy

/-! ### `applyChanges` -/

/-- One element of the `changes` array delivered by `onCellsChanged` (or
built by `handlePaste`). -/
structure Change where
  rowId : ℤ
  columnId : String
  previousCell : Cell
  newCell : Cell
deriving DecidableEq, Repr

/-- One element of a recorded history batch:
`{ rowId, columnId, previousValue, newValue }`. -/
structure Diff where
  rowId : ℤ
  columnId : String
  previousValue : JSValue
  newValue : JSValue
deriving DecidableEq, Repr

/-- The accumulator of the `changes.forEach` loop inside `applyChanges`. -/
structure ApplyResult where
  newData : GridData
  diff : List Diff
  dataChanged : Bool
deriving DecidableEq, Repr

/-- `while (newData.length <= rowId) newData.push(new Array(columns.length)
.fill(null))` — extend the data to at least `n` rows of `null`s. -/
def extendTo (numCols : ℕ) (d : GridData) (n : ℕ) : GridData :=
  d ++ List.replicate (n - d.length) (List.replicate numCols .vNull)

/-- The body of the `changes.forEach` loop of `applyChanges`: skip unknown
columns, negative rows, and (for non-extendable grids) rows beyond the
original row count `maxRowId`; extendable grids grow first; then record and
write the new value when it differs (JavaScript `!==`) from the previous
cell's value.  (The `else if ('isOpen' in newCell)` branch only touches the
rendered cells, not the data.) -/
def applyChangeBody (cols : List Column) (isExtendable : Bool) (maxRowId : ℕ)
    (acc : ApplyResult) (ch : Change) (colIdx : ℕ) : ApplyResult :=
  if ch.rowId < 0 then acc
  else if isExtendable = false ∧ (maxRowId : ℤ) ≤ ch.rowId then acc
  else
    let grown := if isExtendable = true ∧ (maxRowId : ℤ) ≤ ch.rowId then
        extendTo cols.length acc.newData (ch.rowId.toNat + 1)
      else acc.newData
    let changed := acc.dataChanged || decide (acc.newData.length < grown.length)
    let ty := (colAt cols colIdx).type
    let pv := getCellDataByType ty ch.previousCell
    let nv := getCellDataByType ty ch.newCell
    if jsStrictEq pv nv then ⟨grown, acc.diff, changed⟩
    else ⟨setCell grown ch.rowId.toNat colIdx nv,
          acc.diff ++ [⟨ch.rowId, ch.columnId, pv, nv⟩], true⟩

def applyChange (cols : List Column) (isExtendable : Bool) (maxRowId : ℕ)
    (acc : ApplyResult) (ch : Change) : ApplyResult :=
  match columnLookup cols ch.columnId with
  | none => acc
  | some colIdx => applyChangeBody cols isExtendable maxRowId acc ch colIdx

/-- The post-loop `while (newData.length > 1 && !last.some(v => v))
newData.pop()` of the extendable branch, phrased on the reversed row list so
that it is structurally recursive. -/
def popRev : GridData → GridData
  | [] => []
  | [r] => [r]
  | r :: s :: rest => if rowTruthy r then r :: s :: rest else popRev (s :: rest)

/-- The extendable post-processing of `applyChanges`: drop trailing all-falsy
rows (keeping at least one row), then append a fresh `null` row when the last
row holds data. -/
def extendablePost (cols : List Column) (d : GridData) : GridData :=
  match popRev d.reverse with
  | [] => []
  | lastRow :: rest =>
    if rowTruthy lastRow then
      (lastRow :: rest).reverse ++ [cols.map fun _ => JSValue.vNull]
    else (lastRow :: rest).reverse

/-- The `changes.forEach` fold of `applyChanges` (with `maxRowId` frozen at
the incoming row count). -/
def applyFold (cols : List Column) (isExtendable : Bool) (changes : List Change)
    (prevData : GridData) : ApplyResult :=
  changes.foldl (applyChange cols isExtendable prevData.length) ⟨prevData, [], false⟩

/-- The full data/diff computation of one `applyChanges` call (the
`setData(prevData => ...)` updater). -/
def applyChangesData (cols : List Column) (isExtendable : Bool)
    (changes : List Change) (prevData : GridData) : ApplyResult :=
  if isExtendable then
    { newData := extendablePost cols (applyFold cols isExtendable changes prevData).newData
      diff := (applyFold cols isExtendable changes prevData).diff
      dataChanged := (applyFold cols isExtendable changes prevData).dataChanged ||
        decide ((extendablePost cols
          (applyFold cols isExtendable changes prevData).newData).length ≠ prevData.length) }
  else applyFold cols isExtendable changes prevData

/-! ### Component state and the state-updating handlers -/

/-- The component state the claims are about: the grid data, the undo/redo
history, and the most recent data value reported to Dash through
`setProps`. -/
structure GridState where
  gridData : GridData
  history : List (List Diff)
  historyIndex : ℤ
  reported : Option GridData
deriving DecidableEq, Repr

/-- The state after mounting: `useState([])`, `useState(-1)`,
`useState(() => data)`. -/
def initialState (data : GridData) : GridState :=
  { gridData := data, history := [], historyIndex := -1, reported := none }

/-- `applyChanges` as a state transformer: an empty batch returns
immediately; otherwise the data updater runs, and when it changed the data
the history is truncated to `historyIndex + 1` entries, the diff batch is
appended, and the index advances. -/
def applyChanges (cols : List Column) (isExtendable : Bool)
    (changes : List Change) (s : GridState) : GridState :=
  if changes.length = 0 then s
  else if (applyChangesData cols isExtendable changes s.gridData).dataChanged then
    { s with gridData := (applyChangesData cols isExtendable changes s.gridData).newData
             history := s.history.take (s.historyIndex + 1).toNat ++
               [(applyChangesData cols isExtendable changes s.gridData).diff]
             historyIndex := s.historyIndex + 1 }
  else { s with gridData := (applyChangesData cols isExtendable changes s.gridData).newData }

/-- The throttled `useEffect` that watches `gridData` and calls
`setProps({ data: gridData })`: once the timer fires, the currently held
grid data is reported.  (The 16 ms timer itself is real-time behaviour; the
model keeps the effect's observable result.) -/
def reportEffect (s : GridState) : GridState := { s with reported := some s.gridData }

/-- One iteration of the undo/redo write loop: when the entry's column still
resolves and its row is in range, write `f entry` into the cell.  (Recorded
entries always have a non-negative `rowId`; a negative one would throw in
JavaScript and is skipped here.) -/
def writeOne (cols : List Column) (f : Diff → JSValue) (acc : GridData)
    (e : Diff) : GridData :=
  match columnLookup cols e.columnId with
  | some colIdx =>
    if 0 ≤ e.rowId ∧ e.rowId < (acc.length : ℤ) then
      setCell acc e.rowId.toNat colIdx (f e)
    else acc
  | none => acc

/-- The shared write loop of undo (`f = previousValue`) and redo
(`f = newValue`). -/
def writeAll (cols : List Column) (f : Diff → JSValue) (batch : List Diff)
    (d : GridData) : GridData :=
  batch.foldl (writeOne cols f) d

/-- `handleUndoChanges`: with a non-empty past, write every recorded
`previousValue` of the current batch back and step the index down. -/
def handleUndoChanges (cols : List Column) (s : GridState) : GridState :=
  if s.historyIndex < 0 then s
  else
    { s with gridData := writeAll cols Diff.previousValue
               (s.history.getD s.historyIndex.toNat []) s.gridData
             historyIndex := s.historyIndex - 1 }

/-- `handleRedoChanges`: with a non-empty future, write every recorded
`newValue` of the next batch and step the index up. -/
def handleRedoChanges (cols : List Column) (s : GridState) : GridState :=
  if (s.history.length : ℤ) ≤ s.historyIndex + 1 then s
  else
    { s with gridData := writeAll cols Diff.newValue
               (s.history.getD (s.historyIndex + 1).toNat []) s.gridData
             historyIndex := s.historyIndex + 1 }

/-! ### Copy -/

/-- A selected rectangle: the `selectedRange.first/last.row/column.idx`
fields (row index 0 is the header row). -/
structure SelRange where
  firstRowIdx : ℕ
  firstColIdx : ℕ
  lastRowIdx : ℕ
  lastColIdx : ℕ
deriving DecidableEq, Repr

/-- The inclusive index range `[a..b]` traversed by
`for (let i = a; i <= b; i++)`. -/
def rangeClosed (a b : ℕ) : List ℕ := List.range' a (b + 1 - a)

/-- `selectedRangeToTable(selectedRange)`: rows joined by `"\n"`, cells by
`"\t"`; row 0 reads the column title, row `r ≥ 1` reads data row `r - 1`;
every cell goes through `getValueAsString` and then through the `join`
element conversion.  (JavaScript throws on a selection outside the grid;
the model totalises those reads with `undefined`.) -/
def selectedRangeToTable (cols : List Column) (gridData : GridData)
    (r : SelRange) : String :=
  String.intercalate "\n"
    ((rangeClosed r.firstRowIdx r.lastRowIdx).map fun row =>
      String.intercalate "\t"
        ((rangeClosed r.firstColIdx r.lastColIdx).map fun column =>
          jsJoinStr (getValueAsString (colAt cols column)
            (if row = 0 then .vStr (colAt cols column).title
             else getCell gridData (row - 1) column))))

/-- `handleCopy`: with no active range nothing is written; otherwise the
serialised table is placed on the clipboard (`setData("text/plain", ...)`),
modelled as the returned string. -/
def handleCopy (cols : List Column) (gridData : GridData)
    (selectedRange : List SelRange) : Option String :=
  match selectedRange.head? with
  | none => none
  | some r => some (selectedRangeToTable cols gridData r)

/-! ### Paste -/

/-- Split a character list at every occurrence of a separator character
(JavaScript `String.prototype.split` with a one-character separator: the
result is never empty, and an empty input yields `[""]`). -/
def splitOnChar (sep : Char) : List Char → List (List Char)
  | [] => [[]]
  | c :: t =>
    let rest := splitOnChar sep t
    if c = sep then [] :: rest
    else
      match rest with
      | [] => [[c]]
      | h :: r => (c :: h) :: r

/-- The plain-text clipboard parser of `handlePaste`: strip one trailing
`"\r\n"`, split into lines on `"\n"`, split lines into cells on `"\t"`, and
drop the first `"\r"` of every cell.  (The ReactGrid-HTML clipboard branch
requires a DOM parser and is not modelled.) -/
def parsePlainClipboard (s : String) : List (List String) :=
  let cs := match s.data.reverse with
    | '\n' :: '\r' :: t => t.reverse
    | _ => s.data
  (splitOnChar '\n' cs).map fun line =>
    (splitOnChar '\t' line).map fun cellText => ⟨removeFirstChar '\r' cellText⟩

/-- The change-building loop of `handlePaste`: row `ri` of the pasted block
lands on data row `first.row.idx + ri - 1` (the header offset); negative
rows, and — for non-extendable grids — rows beyond the grid, are skipped,
as are columns beyond the column list.  The previous value is read with
`gridData[rowId]?.[colIdx] || null` and both values are wrapped in cells by
`createCell`. -/
def buildPasteChanges (cols : List Column) (isExtendable : Bool)
    (activeRange : SelRange) (gridData : GridData)
    (pastedRows : List (List String)) : List Change :=
  (pastedRows.enum.map fun p =>
    let ri := p.1
    let row := p.2
    let rowId : ℤ := (activeRange.firstRowIdx : ℤ) + ri - 1
    if rowId < 0 then []
    else if isExtendable = false ∧ (gridData.length : ℤ) ≤ rowId then []
    else
      (row.enum.map fun q =>
        let ci := q.1
        let cellText := q.2
        let colIdx := activeRange.firstColIdx + ci
        if cols.length ≤ colIdx then []
        else
          let column := colAt cols colIdx
          let prevVal := jsOr (getCell gridData rowId.toNat colIdx) .vNull
          [({ rowId := rowId, columnId := column.columnId,
              previousCell := createCell column prevVal,
              newCell := createCell column (parseToValue cellText column) } : Change)]).flatten).flatten

/-- `handlePaste` (plain-text branch): with no active range nothing happens;
otherwise the parsed clipboard becomes a change batch handed to
`applyChanges`. -/
def handlePaste (cols : List Column) (isExtendable : Bool)
    (pastedText : String) (selectedRange : List SelRange)
    (s : GridState) : GridState :=
  match selectedRange.head? with
  | none => s
  | some activeRange =>
    let pastedRows := parsePlainClipboard pastedText
    if pastedRows.length = 0 then s
    else applyChanges cols isExtendable
      (buildPasteChanges cols isExtendable activeRange s.gridData pastedRows) s

/-! ### Derived notions used to state the claims -/

/-- The recorded entries of a batch that resolve to the cell `(r, c)`. -/
def entriesAt (cols : List Column) (batch : List Diff) (r c : ℕ) : List Diff :=
  batch.filter fun e => decide (e.rowId = (r : ℤ)) && decide (columnLookup cols e.columnId = some c)

/-- A change is coherent with the current data when its `previousCell`
carries exactly the value the data array holds at the cell it resolves to
(this is what ReactGrid supplies in `onCellsChanged`). -/
def coherentB (cols : List Column) (d : GridData) (ch : Change) : Bool :=
  match columnLookup cols ch.columnId with
  | none => true
  | some colIdx =>
    if 0 ≤ ch.rowId ∧ ch.rowId < (d.length : ℤ) then
      getCellDataByType (colAt cols colIdx).type ch.previousCell
        == getCell d ch.rowId.toNat colIdx
    else true

/-- A whole batch is coherent with the data it is applied to. -/
def Coherent (cols : List Column) (d : GridData) (changes : List Change) : Prop :=
  ∀ ch ∈ changes, coherentB cols d ch = true

instance (cols : List Column) (d : GridData) (changes : List Change) :
    Decidable (Coherent cols d changes) :=
  inferInstanceAs (Decidable (∀ ch ∈ changes, coherentB cols d ch = true))

/-- A change addresses the cell `(r, c)` when its row id is `r` and its
column id resolves to column index `c`. -/
def AddressedBy (cols : List Column) (ch : Change) (r c : ℕ) : Prop :=
  ch.rowId = (r : ℤ) ∧ columnLookup cols ch.columnId = some c

/-- The number of trailing rows whose entries are all falsy. -/
def trailingEmptyCount (d : GridData) : ℕ :=
  (d.reverse.takeWhile fun row => !rowTruthy row).length

/-- An "empty" stored value in the sense of the spec's error-handling
sentence: `null`, `undefined`, or the empty string. -/
def isEmptyValue (v : JSValue) : Bool :=
  v == .vNull || v == .vUndefined || v == .vStr ""

/-- Parsing the text fails for the column's type: the number/percent parsers
find no numeric interpretation, no date format matches, the checkbox text
matches neither boolean pattern, or no dropdown label equals the trimmed
text. -/
def parseFailsB (text : String) (col : Column) : Bool :=
  let t := jsTrim text
  match col.type with
  | .number | .customnumber => decide (numberParserParse t = .vNaN)
  | .percent => decide (percentParserParse t = .vNaN)
  | .date => decide (parseLocaleDate t = none)
  | .checkbox =>
    !((jsToLower t = "true" || jsToLower t = "1" || jsToLower t = "yes") ||
      (jsToLower t = "false" || jsToLower t = "0" || jsToLower t = "no"))
  | .dropdown => !((col.values.map DropdownOption.label).contains t)
  | _ => false

def parseFails (text : String) (col : Column) : Prop := parseFailsB text col = true

instance (text : String) (col : Column) : Decidable (parseFails text col) :=
  inferInstanceAs (Decidable (parseFailsB text col = true))

/-- The value the code actually stores when parsing fails: `NaN` for
number/percent columns, the epoch date string for date columns, `null` for
checkbox and dropdown columns. -/
def fallbackValue (col : Column) : JSValue :=
  match col.type with
  | .number | .customnumber | .percent => .vNaN
  | .date => .vStr epochDateString
  | _ => .vNull

/-! ### Basic lemmas about the array model -/

theorem getD_eq_getElem {α : Type _} (l : List α) (i : ℕ) (d : α) (h : i < l.length) :
    l.getD i d = l[i] := by
  rw [List.getD_eq_getElem?_getD, List.getElem?_eq_getElem h]; rfl

theorem getD_eq_default {α : Type _} (l : List α) (i : ℕ) (d : α) (h : l.length ≤ i) :
    l.getD i d = d := by
  rw [List.getD_eq_getElem?_getD, List.getElem?_eq_none h]; rfl

theorem columnLookup_lt_length {cols : List Column} {cid : String} {i : ℕ}
    (h : columnLookup cols cid = some i) : i < cols.length := by
  induction cols generalizing i with
  | nil => simp [columnLookup] at h
  | cons c rest ih =>
    simp only [columnLookup] at h
    cases hr : columnLookup rest cid with
    | some j =>
      rw [hr] at h
      cases h
      simpa using Nat.succ_lt_succ (ih hr)
    | none =>
      rw [hr] at h
      by_cases hc : c.columnId = cid
      · rw [if_pos hc] at h
        injection h with h
        subst h
        simp
      · simp [hc] at h

theorem jsSetArr_length {l : List JSValue} {i : ℕ} (v : JSValue) (h : i < l.length) :
    (jsSetArr l i v).length = l.length := by
  simp [jsSetArr, h]

theorem jsSetArr_getD_self (l : List JSValue) (i : ℕ) (v : JSValue) :
    (jsSetArr l i v).getD i .vUndefined = v := by
  unfold jsSetArr
  rw [List.getD_eq_getElem?_getD]
  by_cases h : i < l.length
  · rw [if_pos h, List.getElem?_set_self (by simpa using h)]
    rfl
  · rw [if_neg h, List.getElem?_append_right (by simp; omega)]
    have h0 : i - (l ++ List.replicate (i - l.length) JSValue.vUndefined).length = 0 := by
      simp; omega
    rw [h0]
    rfl

theorem jsSetArr_getD_ne (l : List JSValue) {i j : ℕ} (v : JSValue) (h : j ≠ i) :
    (jsSetArr l i v).getD j .vUndefined = l.getD j .vUndefined := by
  unfold jsSetArr
  rw [List.getD_eq_getElem?_getD, List.getD_eq_getElem?_getD]
  by_cases hi : i < l.length
  · rw [if_pos hi, List.getElem?_set_ne (Ne.symm h)]
  · rw [if_neg hi]
    by_cases hj : j < l.length
    · rw [List.getElem?_append_left (by simp; omega), List.getElem?_append_left (by omega)]
    · rw [List.getElem?_eq_none (l := l) (by omega)]
      by_cases hj2 : j < i
      · rw [List.getElem?_append_left (by simp; omega),
          List.getElem?_append_right (by omega),
          List.getElem?_replicate, if_pos (by omega)]
        rfl
      · rw [List.getElem?_eq_none (by simp; omega)]

theorem setCell_length (d : GridData) (r c : ℕ) (v : JSValue) :
    (setCell d r c v).length = d.length := List.length_set d _ _

theorem setCell_getD_row_self {d : GridData} {r : ℕ} (c : ℕ) (v : JSValue)
    (h : r < d.length) :
    (setCell d r c v).getD r [] = jsSetArr (d.getD r []) c v := by
  unfold setCell
  rw [List.getD_eq_getElem?_getD, List.getElem?_set_self (by simpa using h)]
  rfl

theorem getCell_setCell_self {d : GridData} {r : ℕ} (c : ℕ) (v : JSValue)
    (h : r < d.length) : getCell (setCell d r c v) r c = v := by
  unfold getCell
  rw [setCell_getD_row_self c v h]
  exact jsSetArr_getD_self _ _ _

theorem getCell_setCell_ne {d : GridData} {r c r' c' : ℕ} (v : JSValue)
    (h : ¬(r' = r ∧ c' = c)) :
    getCell (setCell d r c v) r' c' = getCell d r' c' := by
  unfold getCell
  by_cases hr : r' = r
  · subst hr
    have hc : c' ≠ c := fun hc => h ⟨rfl, hc⟩
    by_cases hlt : r' < d.length
    · rw [setCell_getD_row_self c v hlt]
      exact jsSetArr_getD_ne _ _ hc
    · rw [getD_eq_default (setCell d r' c v) r' [] (by rw [setCell_length]; omega),
        getD_eq_default d r' [] (by omega)]
  · unfold setCell
    rw [List.getD_eq_getElem?_getD (List.set d r (jsSetArr (List.getD d r []) c v)) r' [],
      List.getElem?_set_ne (Ne.symm hr), ← List.getD_eq_getElem?_getD]

theorem rowsWF_getD {n : ℕ} {d : GridData} (h : RowsWF n d) {r : ℕ} (hr : r < d.length) :
    (d.getD r []).length = n := by
  rw [getD_eq_getElem d r [] hr]
  exact h _ (List.getElem_mem hr)

theorem rowsWF_setCell {n : ℕ} {d : GridData} {r c : ℕ} {v : JSValue}
    (h : RowsWF n d) (hc : c < n) : RowsWF n (setCell d r c v) := by
  by_cases hr : r < d.length
  · intro row hrow
    rcases List.mem_or_eq_of_mem_set hrow with hmem | heq
    · exact h _ hmem
    · subst heq
      rw [jsSetArr_length _ (by rw [rowsWF_getD h hr]; exact hc)]
      exact rowsWF_getD h hr
  · unfold setCell
    rw [List.set_eq_of_length_le (by omega)]
    exact h

/-- Two grids with equal shape and equal cells are equal. -/
theorem grid_ext {d₁ d₂ : GridData} (hlen : d₁.length = d₂.length)
    (hrow : ∀ r, r < d₁.length → (d₁.getD r []).length = (d₂.getD r []).length)
    (hcell : ∀ r c, getCell d₁ r c = getCell d₂ r c) : d₁ = d₂ := by
  apply List.ext_getElem hlen
  intro r h1 h2
  apply List.ext_getElem
  · have := hrow r h1
    rwa [getD_eq_getElem d₁ r [] h1, getD_eq_getElem d₂ r [] h2] at this
  · intro c hc1 hc2
    have := hcell r c
    unfold getCell at this
    rwa [getD_eq_getElem d₁ r [] h1, getD_eq_getElem d₂ r [] h2,
      getD_eq_getElem _ c _ hc1, getD_eq_getElem _ c _ hc2] at this

theorem entriesAt_append (cols : List Column) (l m : List Diff) (r c : ℕ) :
    entriesAt cols (l ++ m) r c = entriesAt cols l r c ++ entriesAt cols m r c :=
  List.filter_append l m

theorem entriesAt_singleton_mem {cols : List Column} {e : Diff} {r c : ℕ}
    (h1 : e.rowId = (r : ℤ)) (h2 : columnLookup cols e.columnId = some c) :
    entriesAt cols [e] r c = [e] := by
  simp [entriesAt, h1, h2]

theorem entriesAt_singleton_notmem {cols : List Column} {e : Diff} {r c : ℕ}
    (h : ¬(e.rowId = (r : ℤ) ∧ columnLookup cols e.columnId = some c)) :
    entriesAt cols [e] r c = [] := by
  simp only [entriesAt, List.filter_cons, List.filter_nil, Bool.and_eq_true,
    decide_eq_true_eq]
  rw [if_neg (by simpa using h)]

theorem writeOne_none {cols : List Column} {e : Diff} (f : Diff → JSValue)
    (acc : GridData) (h : columnLookup cols e.columnId = none) :
    writeOne cols f acc e = acc := by
  unfold writeOne
  rw [h]

theorem writeOne_some_in {cols : List Column} {e : Diff} {ci : ℕ} (f : Diff → JSValue)
    (acc : GridData) (h : columnLookup cols e.columnId = some ci)
    (hr : 0 ≤ e.rowId ∧ e.rowId < (acc.length : ℤ)) :
    writeOne cols f acc e = setCell acc e.rowId.toNat ci (f e) := by
  unfold writeOne
  rw [h]
  show (if 0 ≤ e.rowId ∧ e.rowId < (acc.length : ℤ) then
    setCell acc e.rowId.toNat ci (f e) else acc) = _
  rw [if_pos hr]

theorem writeOne_some_out {cols : List Column} {e : Diff} {ci : ℕ} (f : Diff → JSValue)
    (acc : GridData) (h : columnLookup cols e.columnId = some ci)
    (hr : ¬(0 ≤ e.rowId ∧ e.rowId < (acc.length : ℤ))) :
    writeOne cols f acc e = acc := by
  unfold writeOne
  rw [h]
  show (if 0 ≤ e.rowId ∧ e.rowId < (acc.length : ℤ) then
    setCell acc e.rowId.toNat ci (f e) else acc) = _
  rw [if_neg hr]

theorem writeOne_length (cols : List Column) (f : Diff → JSValue) (acc : GridData)
    (e : Diff) : (writeOne cols f acc e).length = acc.length := by
  cases h : columnLookup cols e.columnId with
  | none => rw [writeOne_none f acc h]
  | some ci =>
    by_cases hr : 0 ≤ e.rowId ∧ e.rowId < (acc.length : ℤ)
    · rw [writeOne_some_in f acc h hr, setCell_length]
    · rw [writeOne_some_out f acc h hr]

theorem writeAll_length (cols : List Column) (f : Diff → JSValue) (batch : List Diff)
    (d : GridData) : (writeAll cols f batch d).length = d.length := by
  induction batch generalizing d with
  | nil => rfl
  | cons e t ih =>
    unfold writeAll
    simp only [List.foldl_cons]
    rw [show t.foldl (writeOne cols f) (writeOne cols f d e) =
      writeAll cols f t (writeOne cols f d e) from rfl]
    rw [ih, writeOne_length]

theorem writeAll_rowsWF {n : ℕ} {cols : List Column} (hn : n = cols.length)
    (f : Diff → JSValue) (batch : List Diff) {d : GridData} (h : RowsWF n d) :
    RowsWF n (writeAll cols f batch d) := by
  induction batch generalizing d with
  | nil => exact h
  | cons e t ih =>
    unfold writeAll
    simp only [List.foldl_cons]
    rw [show t.foldl (writeOne cols f) (writeOne cols f d e) =
      writeAll cols f t (writeOne cols f d e) from rfl]
    apply ih
    cases hcl : columnLookup cols e.columnId with
    | none => rw [writeOne_none f d hcl]; exact h
    | some ci =>
      by_cases hr : 0 ≤ e.rowId ∧ e.rowId < (d.length : ℤ)
      · rw [writeOne_some_in f d hcl hr]
        exact rowsWF_setCell h (hn ▸ columnLookup_lt_length hcl)
      · rw [writeOne_some_out f d hcl hr]
        exact h

/-- The cell-level effect of the undo/redo write loop: a cell with recorded
entries ends at `f` of the last such entry; a cell without entries is left
alone. -/
theorem writeAll_getCell (cols : List Column) (f : Diff → JSValue) (batch : List Diff)
    (d : GridData) (hin : ∀ e ∈ batch, 0 ≤ e.rowId ∧ e.rowId < (d.length : ℤ))
    (r c : ℕ) :
    getCell (writeAll cols f batch d) r c =
      match (entriesAt cols batch r c).getLast? with
      | some e => f e
      | none => getCell d r c := by
  induction batch using List.reverseRecOn generalizing d with
  | nil => rfl
  | append_singleton t e ih =>
    unfold writeAll
    rw [List.foldl_append]
    simp only [List.foldl_cons, List.foldl_nil]
    rw [show t.foldl (writeOne cols f) d = writeAll cols f t d from rfl]
    have hlt : (writeAll cols f t d).length = d.length := writeAll_length cols f t d
    have hint : ∀ x ∈ t, 0 ≤ x.rowId ∧ x.rowId < (d.length : ℤ) :=
      fun x hx => hin x (List.mem_append_left _ hx)
    have hine : 0 ≤ e.rowId ∧ e.rowId < (d.length : ℤ) :=
      hin e (List.mem_append_right _ (by simp))
    rw [entriesAt_append]
    cases hcl : columnLookup cols e.columnId with
    | none =>
      rw [writeOne_none f _ hcl,
        entriesAt_singleton_notmem (by simp [hcl]), List.append_nil]
      exact ih d hint
    | some ci =>
      rw [writeOne_some_in f _ hcl (by rw [hlt]; exact hine)]
      by_cases hrc : e.rowId = (r : ℤ) ∧ ci = c
      · have hr : e.rowId.toNat = r := by omega
        rw [entriesAt_singleton_mem hrc.1 (hrc.2 ▸ hcl)]
        rw [List.getLast?_concat]
        rw [← hr, ← hrc.2]
        exact getCell_setCell_self ci (f e) (by rw [hlt]; omega)
      · have hne : ¬(r = e.rowId.toNat ∧ c = ci) := by
          intro hcon
          exact hrc ⟨by omega, hcon.2.symm⟩
        rw [entriesAt_singleton_notmem (by
          intro hcon
          have hcc : ci = c := by
            have h2 := hcon.2
            rw [hcl] at h2
            injection h2
          exact hrc ⟨hcon.1, hcc⟩), List.append_nil]
        rw [getCell_setCell_ne (f e) hne]
        exact ih d hint

/-! ### Equation lemmas for `applyChange` -/

theorem applyChange_none {cols : List Column} {ch : Change} (isExt : Bool) (m : ℕ)
    (acc : ApplyResult) (h : columnLookup cols ch.columnId = none) :
    applyChange cols isExt m acc ch = acc := by
  unfold applyChange
  rw [h]

theorem applyChange_some {cols : List Column} {ch : Change} {ci : ℕ} (isExt : Bool)
    (m : ℕ) (acc : ApplyResult) (h : columnLookup cols ch.columnId = some ci) :
    applyChange cols isExt m acc ch = applyChangeBody cols isExt m acc ch ci := by
  unfold applyChange
  rw [h]

theorem applyChangeBody_neg {ch : Change} (cols : List Column) (isExt : Bool) (m : ℕ)
    (acc : ApplyResult) (ci : ℕ) (h : ch.rowId < 0) :
    applyChangeBody cols isExt m acc ch ci = acc := by
  unfold applyChangeBody
  rw [if_pos h]

theorem applyChangeBody_skip {ch : Change} {m : ℕ} (cols : List Column)
    (acc : ApplyResult) (ci : ℕ) (hn : ¬ch.rowId < 0) (hs : (m : ℤ) ≤ ch.rowId) :
    applyChangeBody cols false m acc ch ci = acc := by
  unfold applyChangeBody
  rw [if_neg hn, if_pos ⟨rfl, hs⟩]

theorem applyChangeBody_false_eq {ch : Change} {m : ℕ} {cols : List Column} {ci : ℕ}
    (acc : ApplyResult) (hn : ¬ch.rowId < 0) (hlt : ch.rowId < (m : ℤ))
    (heq : jsStrictEq (getCellDataByType (colAt cols ci).type ch.previousCell)
      (getCellDataByType (colAt cols ci).type ch.newCell) = true) :
    applyChangeBody cols false m acc ch ci = acc := by
  unfold applyChangeBody
  rw [if_neg hn, if_neg (by intro hc; omega)]
  simp only [show (false = true ∧ (m : ℤ) ≤ ch.rowId) = False by simp, if_false]
  rw [if_pos heq]
  simp

theorem applyChangeBody_false_ne {ch : Change} {m : ℕ} {cols : List Column} {ci : ℕ}
    (acc : ApplyResult) (hn : ¬ch.rowId < 0) (hlt : ch.rowId < (m : ℤ))
    (hne : jsStrictEq (getCellDataByType (colAt cols ci).type ch.previousCell)
      (getCellDataByType (colAt cols ci).type ch.newCell) = false) :
    applyChangeBody cols false m acc ch ci =
      ⟨setCell acc.newData ch.rowId.toNat ci
          (getCellDataByType (colAt cols ci).type ch.newCell),
        acc.diff ++ [⟨ch.rowId, ch.columnId,
          getCellDataByType (colAt cols ci).type ch.previousCell,
          getCellDataByType (colAt cols ci).type ch.newCell⟩], true⟩ := by
  unfold applyChangeBody
  rw [if_neg hn, if_neg (by intro hc; omega)]
  simp only [show (false = true ∧ (m : ℤ) ≤ ch.rowId) = False by simp, if_false]
  rw [if_neg (by rw [hne]; simp)]

/-! ### Invariant of the non-extendable `applyChanges` fold -/

/-- What stays true of the fold accumulator while a non-extendable
`applyChanges` processes its batch, relative to the initial data `data0`:
the shape is preserved, every recorded entry is in range and resolves, cells
without recorded entries are untouched, and a cell with recorded entries
holds the `newValue` of its last entry. -/
structure FoldInv (cols : List Column) (data0 : GridData) (acc : ApplyResult) : Prop where
  len : acc.newData.length = data0.length
  wf : RowsWF cols.length acc.newData
  inRange : ∀ e ∈ acc.diff, 0 ≤ e.rowId ∧ e.rowId < (data0.length : ℤ) ∧
    ∃ ci, columnLookup cols e.columnId = some ci
  frame : ∀ r c, entriesAt cols acc.diff r c = [] →
    getCell acc.newData r c = getCell data0 r c
  lastVal : ∀ r c e, (entriesAt cols acc.diff r c).getLast? = some e →
    getCell acc.newData r c = e.newValue

theorem foldInv_base {cols : List Column} {data0 : GridData}
    (hwf : RowsWF cols.length data0) : FoldInv cols data0 ⟨data0, [], false⟩ where
  len := rfl
  wf := hwf
  inRange := by intro e he; simp at he
  frame := by intro r c _; rfl
  lastVal := by intro r c e he; simp [entriesAt] at he

theorem foldInv_step {cols : List Column} {data0 : GridData} {acc : ApplyResult}
    (ch : Change) (hInv : FoldInv cols data0 acc) :
    FoldInv cols data0 (applyChange cols false data0.length acc ch) := by
  cases hcl : columnLookup cols ch.columnId with
  | none => rw [applyChange_none _ _ _ hcl]; exact hInv
  | some ci =>
    rw [applyChange_some _ _ _ hcl]
    by_cases hn : ch.rowId < 0
    · rw [applyChangeBody_neg _ _ _ _ _ hn]; exact hInv
    by_cases hs : (data0.length : ℤ) ≤ ch.rowId
    · rw [applyChangeBody_skip _ _ _ hn hs]; exact hInv
    have hlt : ch.rowId < (data0.length : ℤ) := by omega
    cases hje : jsStrictEq (getCellDataByType (colAt cols ci).type ch.previousCell)
      (getCellDataByType (colAt cols ci).type ch.newCell) with
    | true => rw [applyChangeBody_false_eq _ hn hlt hje]; exact hInv
    | false =>
      rw [applyChangeBody_false_ne _ hn hlt hje]
      set pv := getCellDataByType (colAt cols ci).type ch.previousCell with hpv
      set nv := getCellDataByType (colAt cols ci).type ch.newCell with hnv
      set e0 : Diff := ⟨ch.rowId, ch.columnId, pv, nv⟩ with he0
      have hrowlt : ch.rowId.toNat < acc.newData.length := by
        rw [hInv.len]; omega
      have hresolve : e0.rowId = (ch.rowId.toNat : ℤ) ∧
          columnLookup cols e0.columnId = some ci := by
        constructor
        · simp [he0]; omega
        · simpa [he0] using hcl
      constructor
      · rw [setCell_length]; exact hInv.len
      · exact rowsWF_setCell hInv.wf (columnLookup_lt_length hcl)
      · intro e he
        rcases List.mem_append.mp he with hmem | hmem
        · exact hInv.inRange e hmem
        · rcases List.mem_singleton.mp hmem with rfl
          exact ⟨by omega, by omega, ci, by simpa [he0] using hcl⟩
      · intro r c hec
        rw [entriesAt_append] at hec
        rcases List.append_eq_nil.mp hec with ⟨h1, h2⟩
        have hner : ¬(r = ch.rowId.toNat ∧ c = ci) := by
          intro hcon
          have : entriesAt cols [e0] r c = [e0] := by
            apply entriesAt_singleton_mem
            · rw [hcon.1]; exact hresolve.1
            · rw [hcon.2]; exact hresolve.2
          rw [this] at h2
          simp at h2
        rw [getCell_setCell_ne _ hner]
        exact hInv.frame r c h1
      · intro r c e he
        rw [entriesAt_append] at he
        by_cases hres : e0.rowId = (r : ℤ) ∧ columnLookup cols e0.columnId = some c
        · rw [entriesAt_singleton_mem hres.1 hres.2, List.getLast?_concat] at he
          injection he with he
          subst he
          have hr : r = ch.rowId.toNat := by
            have := hres.1
            simp [he0] at this
            omega
          have hco : c = ci := by
            have := hres.2
            simp [he0, hcl] at this
            omega
          rw [hr, hco, getCell_setCell_self _ _ hrowlt]
        · rw [entriesAt_singleton_notmem hres, List.append_nil] at he
          have hner : ¬(r = ch.rowId.toNat ∧ c = ci) := by
            intro hcon
            apply hres
            constructor
            · simp [he0]; omega
            · rw [hcon.2]; simpa [he0] using hcl
          rw [getCell_setCell_ne _ hner]
          exact hInv.lastVal r c e he

theorem foldInv_fold {cols : List Column} {data0 : GridData} (changes : List Change)
    {acc : ApplyResult} (hInv : FoldInv cols data0 acc) :
    FoldInv cols data0 (changes.foldl (applyChange cols false data0.length) acc) := by
  induction changes generalizing acc with
  | nil => exact hInv
  | cons ch t ih =>
    simp only [List.foldl_cons]
    exact ih (foldInv_step ch hInv)

/-- The recorded `previousValue` of every diff entry produced by a coherent
non-extendable batch is the value `data0` held at the entry's cell. -/
def PrevOrig (cols : List Column) (data0 : GridData) (e : Diff) : Prop :=
  ∀ ci, columnLookup cols e.columnId = some ci →
    e.previousValue = getCell data0 e.rowId.toNat ci

theorem coherentB_some {cols : List Column} {d : GridData} {ch : Change} {ci : ℕ}
    (h : columnLookup cols ch.columnId = some ci)
    (hr : 0 ≤ ch.rowId ∧ ch.rowId < (d.length : ℤ))
    (hb : coherentB cols d ch = true) :
    getCellDataByType (colAt cols ci).type ch.previousCell =
      getCell d ch.rowId.toNat ci := by
  unfold coherentB at hb
  rw [h] at hb
  have hb2 : (if 0 ≤ ch.rowId ∧ ch.rowId < (d.length : ℤ) then
      getCellDataByType (colAt cols ci).type ch.previousCell
        == getCell d ch.rowId.toNat ci
    else true) = true := hb
  rw [if_pos hr] at hb2
  exact eq_of_beq hb2

theorem fold_prevOrig {cols : List Column} {data0 : GridData} (changes : List Change)
    {acc : ApplyResult} (hco : Coherent cols data0 changes)
    (hacc : ∀ e ∈ acc.diff, PrevOrig cols data0 e) :
    ∀ e ∈ (changes.foldl (applyChange cols false data0.length) acc).diff,
      PrevOrig cols data0 e := by
  induction changes generalizing acc with
  | nil => exact hacc
  | cons ch t ih =>
    simp only [List.foldl_cons]
    apply ih (fun x hx => hco x (List.mem_cons_of_mem _ hx))
    have hchco := hco ch (List.mem_cons_self _ _)
    cases hcl : columnLookup cols ch.columnId with
    | none => rw [applyChange_none _ _ _ hcl]; exact hacc
    | some ci =>
      rw [applyChange_some _ _ _ hcl]
      by_cases hn : ch.rowId < 0
      · rw [applyChangeBody_neg _ _ _ _ _ hn]; exact hacc
      by_cases hs : (data0.length : ℤ) ≤ ch.rowId
      · rw [applyChangeBody_skip _ _ _ hn hs]; exact hacc
      have hlt : ch.rowId < (data0.length : ℤ) := by omega
      cases hje : jsStrictEq (getCellDataByType (colAt cols ci).type ch.previousCell)
        (getCellDataByType (colAt cols ci).type ch.newCell) with
      | true => rw [applyChangeBody_false_eq _ hn hlt hje]; exact hacc
      | false =>
        rw [applyChangeBody_false_ne _ hn hlt hje]
        intro e he
        rcases List.mem_append.mp he with hmem | hmem
        · exact hacc e hmem
        · rcases List.mem_singleton.mp hmem with rfl
          intro ci' hci'
          have hcieq : ci' = ci := by
            simp only at hci'
            rw [hcl] at hci'
            injection hci' with h2
            omega
          subst hcieq
          simpa using coherentB_some hcl ⟨by omega, hlt⟩ hchco

/-- Undoing a batch whose entries are in range, whose recorded previous
values are the original cell values, and outside whose entries the data is
unchanged, restores the original data exactly. -/
theorem writeAll_restore {cols : List Column} {data0 df : GridData} {batch : List Diff}
    (hlen : df.length = data0.length)
    (hwfF : RowsWF cols.length df) (hwf0 : RowsWF cols.length data0)
    (hin : ∀ e ∈ batch, 0 ≤ e.rowId ∧ e.rowId < (df.length : ℤ))
    (hframe : ∀ r c, entriesAt cols batch r c = [] → getCell df r c = getCell data0 r c)
    (hprev : ∀ e ∈ batch, PrevOrig cols data0 e) :
    writeAll cols Diff.previousValue batch df = data0 := by
  apply grid_ext
  · rw [writeAll_length, hlen]
  · intro r hr
    have hr2 : r < df.length := by rwa [writeAll_length] at hr
    rw [rowsWF_getD (writeAll_rowsWF rfl _ _ hwfF) (by rwa [writeAll_length]),
      rowsWF_getD hwf0 (by omega)]
  · intro r c
    rw [writeAll_getCell cols Diff.previousValue batch df hin r c]
    cases hlast : (entriesAt cols batch r c).getLast? with
    | none =>
      show getCell df r c = getCell data0 r c
      exact hframe r c (List.getLast?_eq_none_iff.mp hlast)
    | some e =>
      show e.previousValue = getCell data0 r c
      have hmem : e ∈ entriesAt cols batch r c := by
        rw [List.getLast?_eq_head?_reverse] at hlast
        have hh := List.mem_of_mem_head? hlast
        simpa using hh
      have hprop : e.rowId = (r : ℤ) ∧ columnLookup cols e.columnId = some c := by
        have := List.of_mem_filter hmem
        simpa using this
      have hbmem : e ∈ batch := List.mem_of_mem_filter hmem
      have hpe := hprev e hbmem c hprop.2
      have hr1 := hprop.1
      have hrnat : e.rowId.toNat = r := by omega
      rw [hpe, hrnat]

/-- Redoing a batch immediately after undoing it restores the post-apply
data: the undo only touched recorded cells, and the redo rewrites each of
them with the `newValue` of its last entry, which is what the post-apply
data holds there. -/
theorem writeAll_redo_recover {cols : List Column} {df : GridData} {batch : List Diff}
    (hwfF : RowsWF cols.length df)
    (hin : ∀ e ∈ batch, 0 ≤ e.rowId ∧ e.rowId < (df.length : ℤ))
    (hlast : ∀ r c e, (entriesAt cols batch r c).getLast? = some e →
      getCell df r c = e.newValue) :
    writeAll cols Diff.newValue batch (writeAll cols Diff.previousValue batch df) = df := by
  have hulen : (writeAll cols Diff.previousValue batch df).length = df.length :=
    writeAll_length _ _ _ _
  have hinU : ∀ e ∈ batch, 0 ≤ e.rowId ∧
      e.rowId < ((writeAll cols Diff.previousValue batch df).length : ℤ) := by
    intro e he
    rw [hulen]
    exact hin e he
  apply grid_ext
  · rw [writeAll_length, hulen]
  · intro r hr
    have hr2 : r < df.length := by rw [writeAll_length, hulen] at hr; exact hr
    rw [rowsWF_getD (writeAll_rowsWF rfl _ _ (writeAll_rowsWF rfl _ _ hwfF)) hr,
      rowsWF_getD hwfF hr2]
  · intro r c
    rw [writeAll_getCell cols Diff.newValue batch _ hinU r c]
    cases hlg : (entriesAt cols batch r c).getLast? with
    | none =>
      show getCell (writeAll cols Diff.previousValue batch df) r c = getCell df r c
      rw [writeAll_getCell cols Diff.previousValue batch df hin r c, hlg]
    | some e =>
      show e.newValue = getCell df r c
      exact (hlast r c e hlg).symm

/-! ### State-level bookkeeping of `applyChanges` / undo / redo -/

/-- The history-index invariant of the component:
`-1 ≤ historyIndex ≤ history.length - 1`. -/
def HistInv (s : GridState) : Prop :=
  -1 ≤ s.historyIndex ∧ s.historyIndex ≤ (s.history.length : ℤ) - 1

instance (s : GridState) : Decidable (HistInv s) :=
  inferInstanceAs (Decidable (_ ∧ _))

theorem take_append_getD {α : Type _} (l : List α) (k : ℕ) (x d : α) (hk : k ≤ l.length) :
    (l.take k ++ [x]).getD k d = x := by
  rw [List.getD_eq_getElem?_getD,
    List.getElem?_append_right (by simp [Nat.min_eq_left hk]),
    List.length_take, Nat.min_eq_left hk]
  simp

/-- After a data-changing `applyChanges` on a state satisfying the history
invariant, the batch just recorded sits at the new `historyIndex`. -/
theorem applyChanges_fields (cols : List Column) (isExtendable : Bool)
    (changes : List Change) (s : GridState) (hne : ¬changes.length = 0)
    (hdc : (applyChangesData cols isExtendable changes s.gridData).dataChanged = true) :
    applyChanges cols isExtendable changes s =
      { s with gridData := (applyChangesData cols isExtendable changes s.gridData).newData
               history := s.history.take (s.historyIndex + 1).toNat ++
                 [(applyChangesData cols isExtendable changes s.gridData).diff]
               historyIndex := s.historyIndex + 1 } := by
  unfold applyChanges
  rw [if_neg hne, if_pos hdc]

theorem handleUndoChanges_fields (cols : List Column) (s : GridState)
    (h : ¬s.historyIndex < 0) :
    handleUndoChanges cols s =
      { s with gridData := writeAll cols Diff.previousValue
                 (s.history.getD s.historyIndex.toNat []) s.gridData
               historyIndex := s.historyIndex - 1 } := by
  unfold handleUndoChanges
  rw [if_neg h]

theorem handleRedoChanges_fields (cols : List Column) (s : GridState)
    (h : ¬(s.history.length : ℤ) ≤ s.historyIndex + 1) :
    handleRedoChanges cols s =
      { s with gridData := writeAll cols Diff.newValue
                 (s.history.getD (s.historyIndex + 1).toNat []) s.gridData
               historyIndex := s.historyIndex + 1 } := by
  unfold handleRedoChanges
  rw [if_neg h]

theorem applyChangesData_false (cols : List Column) (changes : List Change)
    (d : GridData) : applyChangesData cols false changes d = applyFold cols false changes d :=
  rfl

theorem applyFold_foldInv {cols : List Column} {d : GridData} (changes : List Change)
    (hwf : RowsWF cols.length d) : FoldInv cols d (applyFold cols false changes d) :=
  foldInv_fold changes (foldInv_base hwf)

/-- Undoing immediately after a recorded non-extendable batch restores the
data array (core data-level statement shared by the claims). -/
theorem undo_after_apply_core (cols : List Column) (changes : List Change)
    (s : GridState) (hwf : RowsWF cols.length s.gridData) (hhist : HistInv s)
    (hne : ¬changes.length = 0)
    (hdc : (applyChangesData cols false changes s.gridData).dataChanged = true)
    (hco : Coherent cols s.gridData changes) :
    (handleUndoChanges cols (applyChanges cols false changes s)).gridData = s.gridData := by
  obtain ⟨hh1, hh2⟩ := hhist
  have hInv : FoldInv cols s.gridData (applyChangesData cols false changes s.gridData) := by
    rw [applyChangesData_false]
    exact applyFold_foldInv changes hwf
  have hprev : ∀ e ∈ (applyChangesData cols false changes s.gridData).diff,
      PrevOrig cols s.gridData e := by
    rw [applyChangesData_false]
    exact fold_prevOrig changes hco (by intro e he; simp [applyFold] at he)
  rw [applyChanges_fields cols false changes s hne hdc]
  rw [handleUndoChanges_fields cols _ (by simp; omega)]
  simp only
  have hk : (s.historyIndex + 1).toNat ≤ s.history.length := by omega
  rw [take_append_getD _ _ _ _ hk]
  apply writeAll_restore hInv.len hInv.wf hwf
  · intro e he
    rcases hInv.inRange e he with ⟨h1, h2, _⟩
    rw [hInv.len]
    exact ⟨h1, h2⟩
  · exact hInv.frame
  · exact hprev

/-- Redoing immediately after undoing a recorded non-extendable batch
reproduces the post-apply data array (core data-level statement). -/
theorem redo_after_undo_core (cols : List Column) (changes : List Change)
    (s : GridState) (hwf : RowsWF cols.length s.gridData) (hhist : HistInv s)
    (hne : ¬changes.length = 0)
    (hdc : (applyChangesData cols false changes s.gridData).dataChanged = true) :
    (handleRedoChanges cols (handleUndoChanges cols (applyChanges cols false changes s))).gridData
      = (applyChanges cols false changes s).gridData := by
  obtain ⟨hh1, hh2⟩ := hhist
  have hInv : FoldInv cols s.gridData (applyChangesData cols false changes s.gridData) := by
    rw [applyChangesData_false]
    exact applyFold_foldInv changes hwf
  have hk : (s.historyIndex + 1).toNat ≤ s.history.length := by omega
  rw [applyChanges_fields cols false changes s hne hdc]
  rw [handleUndoChanges_fields cols _ (by simp; omega)]
  simp only
  rw [take_append_getD _ _ _ _ hk]
  rw [handleRedoChanges_fields cols _ (by
    dsimp only
    rw [List.length_append, List.length_take, Nat.min_eq_left hk]
    simp only [List.length_singleton]
    push_cast
    omega)]
  simp only
  have hidx : s.historyIndex + 1 - 1 + 1 = s.historyIndex + 1 := by omega
  rw [hidx, take_append_getD _ _ _ _ hk]
  apply writeAll_redo_recover hInv.wf
  · intro e he
    rcases hInv.inRange e he with ⟨h1, h2, _⟩
    rw [hInv.len]
    exact ⟨h1, h2⟩
  · exact hInv.lastVal

/-! ### Claim C1 -/

/-- C1 (amended): for a non-extendable grid whose rows all have the column
count as length and whose history index is in bounds, after a change batch
that `applyChanges` records as the most recent history entry and whose
changes carry the data's own values in their `previousCell`s, invoking
`handleUndoChanges` immediately afterwards restores the 2-D data array to
exactly the value it had before the batch was applied. -/
theorem undo_restores_data_after_applyChanges (cols : List Column)
    (changes : List Change) (s : GridState)
    (hwf : RowsWF cols.length s.gridData) (hhist : HistInv s)
    (hne : ¬changes.length = 0)
    (hdc : (applyChangesData cols false changes s.gridData).dataChanged = true)
    (hco : Coherent cols s.gridData changes) :
    (handleUndoChanges cols (applyChanges cols false changes s)).gridData = s.gridData :=
  undo_after_apply_core cols changes s hwf hhist hne hdc hco

/-- Witness for C1: a one-cell text grid, editing `"x"` to `"y"` and undoing
brings back `"x"`. -/
theorem undo_restores_data_witness :
    (handleUndoChanges [{ columnId := "a", title := "A", type := .text }]
      (applyChanges [{ columnId := "a", title := "A", type := .text }] false
        [{ rowId := 0, columnId := "a", previousCell := { text := some "x" },
           newCell := { text := some "y" } }]
        (initialState [[JSValue.vStr "x"]]))).gridData = [[JSValue.vStr "x"]] :=
  undo_restores_data_after_applyChanges
    [{ columnId := "a", title := "A", type := .text }]
    [{ rowId := 0, columnId := "a", previousCell := { text := some "x" },
       newCell := { text := some "y" } }]
    (initialState [[JSValue.vStr "x"]])
    (by decide) (by decide) (by decide) (by decide) (by decide)

/-- Counterexample to C1 as stated: on an extendable grid, a batch that
writes below the last row grows the data (and appends a fresh blank row),
and `handleUndoChanges` only rewrites cell values — it never removes the
added rows, so the pre-batch array `[["x"]]` is not restored. -/
theorem undo_restores_data_counterexample :
    ¬((handleUndoChanges [{ columnId := "a", title := "A", type := .text }]
      (applyChanges [{ columnId := "a", title := "A", type := .text }] true
        [{ rowId := 1, columnId := "a", previousCell := { text := some "" },
           newCell := { text := some "y" } }]
        (initialState [[JSValue.vStr "x"]]))).gridData
      = (initialState [[JSValue.vStr "x"]]).gridData) := by
  decide

/-! ### Claim C2 -/

/-- C2 (amended): for a non-extendable grid whose rows all have the column
count as length and whose history index is in bounds, after a change batch
has been applied by `applyChanges` (and recorded as the most recent history
entry) and then undone by `handleUndoChanges`, invoking `handleRedoChanges`
restores the 2-D data array to exactly the value it had after the batch was
applied. -/
theorem redo_restores_data_after_undo (cols : List Column)
    (changes : List Change) (s : GridState)
    (hwf : RowsWF cols.length s.gridData) (hhist : HistInv s)
    (hne : ¬changes.length = 0)
    (hdc : (applyChangesData cols false changes s.gridData).dataChanged = true) :
    (handleRedoChanges cols (handleUndoChanges cols
        (applyChanges cols false changes s))).gridData
      = (applyChanges cols false changes s).gridData :=
  redo_after_undo_core cols changes s hwf hhist hne hdc

/-- Witness for C2: a one-cell text grid; apply, undo, redo lands back on
the applied value `"y"`. -/
theorem redo_restores_data_witness :
    (handleRedoChanges [{ columnId := "a", title := "A", type := .text }]
      (handleUndoChanges [{ columnId := "a", title := "A", type := .text }]
        (applyChanges [{ columnId := "a", title := "A", type := .text }] false
          [{ rowId := 0, columnId := "a", previousCell := { text := some "x" },
             newCell := { text := some "y" } }]
          (initialState [[JSValue.vStr "x"]])))).gridData = [[JSValue.vStr "y"]] := by
  have h := redo_restores_data_after_undo
    [{ columnId := "a", title := "A", type := .text }]
    [{ rowId := 0, columnId := "a", previousCell := { text := some "x" },
       newCell := { text := some "y" } }]
    (initialState [[JSValue.vStr "x"]])
    (by decide) (by decide) (by decide) (by decide)
  rw [h]
  decide

/-- Counterexample to C2 as stated: on an extendable grid, blanking the
last data row makes the post-processing pop it and leave `[["x"], [null]]`;
undo restores the popped value, but redo then writes the empty string into
the still-present row, yielding `[["x"], [""]]` — not the post-apply array
`[["x"], [null]]`. -/
theorem redo_restores_data_counterexample :
    ¬((handleRedoChanges [{ columnId := "a", title := "A", type := .text }]
      (handleUndoChanges [{ columnId := "a", title := "A", type := .text }]
        (applyChanges [{ columnId := "a", title := "A", type := .text }] true
          [{ rowId := 1, columnId := "a", previousCell := { text := some "y" },
             newCell := { text := some "" } }]
          (initialState [[JSValue.vStr "x"], [JSValue.vStr "y"]])))).gridData
      = (applyChanges [{ columnId := "a", title := "A", type := .text }] true
          [{ rowId := 1, columnId := "a", previousCell := { text := some "y" },
             newCell := { text := some "" } }]
          (initialState [[JSValue.vStr "x"], [JSValue.vStr "y"]])).gridData) := by
  decide

/-! ### Claim C3 -/

/-- C3: after every cell-change batch accepted by `applyChanges`, and after
every undo/redo, the `useEffect` watching `gridData` reports the state
through `setProps({ data: gridData })`, and the array it reports equals the
component's internal grid data at that point (which, for `applyChanges`, is
the updated array computed from the batch). -/
theorem setProps_reports_internal_data (cols : List Column) (isExtendable : Bool)
    (changes : List Change) (s : GridState) (hne : ¬changes.length = 0) :
    ((reportEffect (applyChanges cols isExtendable changes s)).reported
        = some (reportEffect (applyChanges cols isExtendable changes s)).gridData)
    ∧ ((reportEffect (handleUndoChanges cols s)).reported
        = some (reportEffect (handleUndoChanges cols s)).gridData)
    ∧ ((reportEffect (handleRedoChanges cols s)).reported
        = some (reportEffect (handleRedoChanges cols s)).gridData)
    ∧ (reportEffect (applyChanges cols isExtendable changes s)).gridData
        = (applyChangesData cols isExtendable changes s.gridData).newData := by
  refine ⟨rfl, rfl, rfl, ?_⟩
  show (applyChanges cols isExtendable changes s).gridData = _
  unfold applyChanges
  rw [if_neg hne]
  by_cases h : (applyChangesData cols isExtendable changes s.gridData).dataChanged = true
  · rw [if_pos h]
  · rw [if_neg h]

/-- Witness for C3 at a concrete one-cell edit. -/
theorem setProps_reports_internal_data_witness :
    (reportEffect (applyChanges [{ columnId := "a", title := "A", type := .text }] false
      [{ rowId := 0, columnId := "a", previousCell := { text := some "x" },
         newCell := { text := some "y" } }]
      (initialState [[JSValue.vStr "x"]]))).reported
    = some (reportEffect (applyChanges [{ columnId := "a", title := "A", type := .text }] false
      [{ rowId := 0, columnId := "a", previousCell := { text := some "x" },
         newCell := { text := some "y" } }]
      (initialState [[JSValue.vStr "x"]]))).gridData :=
  (setProps_reports_internal_data [{ columnId := "a", title := "A", type := .text }] false
    [{ rowId := 0, columnId := "a", previousCell := { text := some "x" },
       newCell := { text := some "y" } }]
    (initialState [[JSValue.vStr "x"]]) (by decide)).1

/-! ### Claim C10 -/

/-- C10: the invariant `-1 ≤ historyIndex ≤ history.length - 1` holds in the
initial state and is preserved by `applyChanges`, `handleUndoChanges` and
`handleRedoChanges`; moreover a data-changing `applyChanges` truncates the
history to `historyIndex + 1` entries before appending the new batch, so the
new `historyIndex` points at the batch just recorded. -/
theorem history_index_invariant (cols : List Column) (isExtendable : Bool)
    (data : GridData) (changes : List Change) (s : GridState) (hinv : HistInv s) :
    HistInv (initialState data)
    ∧ HistInv (applyChanges cols isExtendable changes s)
    ∧ HistInv (handleUndoChanges cols s)
    ∧ HistInv (handleRedoChanges cols s)
    ∧ (¬changes.length = 0 →
        (applyChangesData cols isExtendable changes s.gridData).dataChanged = true →
        (applyChanges cols isExtendable changes s).history
            = s.history.take (s.historyIndex + 1).toNat ++
              [(applyChangesData cols isExtendable changes s.gridData).diff]
          ∧ (applyChanges cols isExtendable changes s).history.getD
              (applyChanges cols isExtendable changes s).historyIndex.toNat []
            = (applyChangesData cols isExtendable changes s.gridData).diff) := by
  obtain ⟨hh1, hh2⟩ := hinv
  have hk : (s.historyIndex + 1).toNat ≤ s.history.length := by omega
  refine ⟨⟨by show (-1 : ℤ) ≤ -1; omega, by show (-1 : ℤ) ≤ ([] : List (List Diff)).length - 1; simp⟩,
    ?_, ?_, ?_, ?_⟩
  · unfold applyChanges
    by_cases hne : changes.length = 0
    · rw [if_pos hne]
      exact ⟨hh1, hh2⟩
    rw [if_neg hne]
    by_cases hdc : (applyChangesData cols isExtendable changes s.gridData).dataChanged = true
    · rw [if_pos hdc]
      constructor
      · show -1 ≤ s.historyIndex + 1
        omega
      · show s.historyIndex + 1 ≤
          ((s.history.take (s.historyIndex + 1).toNat ++
            [(applyChangesData cols isExtendable changes s.gridData).diff]).length : ℤ) - 1
        rw [List.length_append, List.length_take, Nat.min_eq_left hk,
          List.length_singleton]
        push_cast
        omega
    · rw [if_neg hdc]
      exact ⟨hh1, hh2⟩
  · unfold handleUndoChanges
    by_cases hg : s.historyIndex < 0
    · rw [if_pos hg]
      exact ⟨hh1, hh2⟩
    · rw [if_neg hg]
      exact ⟨by show -1 ≤ s.historyIndex - 1; omega,
        by show s.historyIndex - 1 ≤ (s.history.length : ℤ) - 1; omega⟩
  · unfold handleRedoChanges
    by_cases hg : (s.history.length : ℤ) ≤ s.historyIndex + 1
    · rw [if_pos hg]
      exact ⟨hh1, hh2⟩
    · rw [if_neg hg]
      exact ⟨by show -1 ≤ s.historyIndex + 1; omega,
        by show s.historyIndex + 1 ≤ (s.history.length : ℤ) - 1; omega⟩
  · intro hne hdc
    rw [applyChanges_fields cols isExtendable changes s hne hdc]
    refine ⟨rfl, ?_⟩
    show (s.history.take (s.historyIndex + 1).toNat ++
      [(applyChangesData cols isExtendable changes s.gridData).diff]).getD
        (s.historyIndex + 1).toNat [] = _
    exact take_append_getD _ _ _ _ hk

/-- Witness for C10 at a concrete one-cell edit. -/
theorem history_index_invariant_witness :
    HistInv (applyChanges [{ columnId := "a", title := "A", type := .text }] false
      [{ rowId := 0, columnId := "a", previousCell := { text := some "x" },
         newCell := { text := some "y" } }]
      (initialState [[JSValue.vStr "x"]])) :=
  (history_index_invariant [{ columnId := "a", title := "A", type := .text }] false
    [[JSValue.vStr "x"]]
    [{ rowId := 0, columnId := "a", previousCell := { text := some "x" },
       newCell := { text := some "y" } }]
    (initialState [[JSValue.vStr "x"]]) (by decide)).2.1

/-! ### Claim C4 -/

/-- C4 (amended): when parsing the input text fails for a typed column, the
value stored in the cell is a type-specific failure sentinel — `NaN` for
number/percent columns, the epoch date string `"1970-01-01"` for date
columns (because `new Date(null)` is the epoch), and `null` for checkbox and
dropdown columns — not the original text. -/
theorem parse_failure_stores_fallback (text : String) (col : Column)
    (h : parseFails text col) : parseToValue text col = fallbackValue col := by
  unfold parseFails parseFailsB at h
  unfold parseToValue fallbackValue
  cases hct : col.type
  all_goals simp only [hct] at h ⊢
  case text => exact absurd h Bool.false_ne_true
  case other => exact absurd h Bool.false_ne_true
  case number => exact of_decide_eq_true h
  case customnumber => exact of_decide_eq_true h
  case percent => exact of_decide_eq_true h
  case date => simp only [of_decide_eq_true h]
  case checkbox =>
    rw [Bool.not_eq_true', Bool.or_eq_false_iff] at h
    rw [if_neg (by simp [h.1]), if_neg (by simp [h.2])]
  case dropdown =>
    rw [Bool.not_eq_true'] at h
    rw [if_neg (by rw [h]; exact Bool.false_ne_true)]

/-- Witness for C4: `"hello"` fails to parse as a date and a checkbox. -/
theorem parse_failure_stores_fallback_witness :
    parseToValue "hello" { columnId := "d", title := "D", type := .date }
      = fallbackValue { columnId := "d", title := "D", type := .date }
    ∧ parseToValue "hello" { columnId := "k", title := "K", type := .checkbox }
      = fallbackValue { columnId := "k", title := "K", type := .checkbox } :=
  ⟨parse_failure_stores_fallback "hello"
      { columnId := "d", title := "D", type := .date } (by decide),
    parse_failure_stores_fallback "hello"
      { columnId := "k", title := "K", type := .checkbox } (by decide)⟩

/-- Counterexample to C4 as stated: for a date column the text `"hello"`
fails every date format, yet the stored value is the bogus epoch date string
`"1970-01-01"` — neither the original text nor an empty value. -/
theorem parse_failure_stores_fallback_counterexample :
    parseToValue "hello" { columnId := "d", title := "D", type := .date }
      = .vStr "1970-01-01"
    ∧ parseToValue "hello" { columnId := "d", title := "D", type := .date }
      ≠ .vStr "hello"
    ∧ isEmptyValue (parseToValue "hello"
        { columnId := "d", title := "D", type := .date }) = false := by
  decide

/-! ### Claim C6 -/

/-- C6 (amended): for a dropdown column, `parseToValue` returns `null` when
no option label equals the trimmed input text; when the first option whose
label equals the trimmed text exists, it returns that option's stored value
if the value is truthy, and the empty string (not the stored value) if the
value is falsy — the `?.value || ''` fallback. -/
theorem dropdown_parse_to_value (text : String) (col : Column)
    (h : col.type = .dropdown) :
    (∀ o : DropdownOption, col.values.find? (fun o => o.label = jsTrim text) = some o →
      parseToValue text col = (if o.value.truthy = true then o.value else .vStr ""))
    ∧ (col.values.find? (fun o => o.label = jsTrim text) = none →
      parseToValue text col = .vNull) := by
  unfold parseToValue
  simp only [h]
  constructor
  · intro o hfind
    have hmem : o ∈ col.values := List.mem_of_find?_eq_some hfind
    have hlab : o.label = jsTrim text := by
      have := List.find?_some hfind
      simpa using this
    rw [if_pos (by
      rw [List.elem_iff]
      exact hlab ▸ List.mem_map_of_mem DropdownOption.label hmem)]
    rw [hfind]
    rfl
  · intro hnone
    rw [if_neg (by
      rw [List.elem_iff]
      simp only [List.mem_map, not_exists, not_and]
      rintro o hmem hlab
      have hno := List.find?_eq_none.mp hnone o hmem
      simp [hlab] at hno)]

/-- Witness for C6: a matching truthy value is returned, a missing label
gives `null`. -/
theorem dropdown_parse_to_value_witness :
    parseToValue "Yes"
      { columnId := "c", title := "C", type := .dropdown,
        values := [{ label := "Yes", value := .vNum 1 }] } = .vNum 1
    ∧ parseToValue "Maybe"
      { columnId := "c", title := "C", type := .dropdown,
        values := [{ label := "Yes", value := .vNum 1 }] } = .vNull := by
  constructor
  · have h := (dropdown_parse_to_value "Yes"
      { columnId := "c", title := "C", type := .dropdown,
        values := [{ label := "Yes", value := .vNum 1 }] } rfl).1
      { label := "Yes", value := .vNum 1 } (by decide)
    rw [h]
    decide
  · exact (dropdown_parse_to_value "Maybe"
      { columnId := "c", title := "C", type := .dropdown,
        values := [{ label := "Yes", value := .vNum 1 }] } rfl).2 (by decide)

/-- Counterexample to C6 as stated: an option whose stored value is the
falsy number `0` matches by label, but `parseToValue` returns `''` instead
of the stored value. -/
theorem dropdown_parse_to_value_counterexample :
    parseToValue "No"
      { columnId := "c", title := "C", type := .dropdown,
        values := [{ label := "No", value := .vNum 0 }] } = .vStr ""
    ∧ (JSValue.vStr "" ≠ .vNum 0) := by
  decide

/-! ### Claim C5 -/

/-- C5 (amended): for the active rectangular selected range, `handleCopy`
writes to the clipboard exactly the serialization in which rows are joined
by a newline and cells within a row by a tab; selection row index `r ≥ 1`
yields the per-column-type string form of data row `r - 1` restricted to
the selected columns, and selection row index 0 yields the column titles
*passed through the same per-type string conversion* — which is the title
itself for every non-dropdown column, but for a dropdown column is the
label of the option whose stored value equals the title (usually the empty
string), not the title. -/
theorem handleCopy_serializes_range (cols : List Column) (gridData : GridData)
    (selectedRange : List SelRange) (r : SelRange)
    (hr : selectedRange.head? = some r) :
    handleCopy cols gridData selectedRange = some (String.intercalate "\n"
      ((rangeClosed r.firstRowIdx r.lastRowIdx).map fun row =>
        String.intercalate "\t" ((rangeClosed r.firstColIdx r.lastColIdx).map fun column =>
          jsJoinStr (getValueAsString (colAt cols column)
            (if row = 0 then .vStr (colAt cols column).title
             else getCell gridData (row - 1) column)))))
    ∧ (∀ column : ℕ, (colAt cols column).type ≠ .dropdown →
        jsJoinStr (getValueAsString (colAt cols column)
          (.vStr (colAt cols column).title)) = (colAt cols column).title) := by
  constructor
  · unfold handleCopy
    rw [hr]
    rfl
  · intro column hnd
    unfold getValueAsString
    cases hct : (colAt cols column).type
    case dropdown => exact absurd hct hnd
    all_goals simp only [hct]
    case text => rfl
    case number => rfl
    case customnumber => rfl
    case percent => rfl
    case date => rfl
    case checkbox => rfl
    case other => rfl

/-- Witness for C5 at a two-cell text grid: copying the header plus the
first data row gives `"A\nx"`. -/
theorem handleCopy_serializes_range_witness :
    handleCopy [{ columnId := "a", title := "A", type := .text }]
      [[JSValue.vStr "x"]]
      [{ firstRowIdx := 0, firstColIdx := 0, lastRowIdx := 1, lastColIdx := 0 }]
      = some "A\nx" := by
  have h := (handleCopy_serializes_range [{ columnId := "a", title := "A", type := .text }]
    [[JSValue.vStr "x"]]
    [{ firstRowIdx := 0, firstColIdx := 0, lastRowIdx := 1, lastColIdx := 0 }]
    { firstRowIdx := 0, firstColIdx := 0, lastRowIdx := 1, lastColIdx := 0 }
    (by decide)).1
  rw [h]
  decide

/-- Counterexample to C5 as stated: for a dropdown column titled
`"Choice"`, copying the header cell yields `""` (the label lookup on the
title finds no option), not the column title. -/
theorem handleCopy_serializes_range_counterexample :
    handleCopy
      [{ columnId := "c", title := "Choice", type := .dropdown,
         values := [{ label := "Yes", value := .vNum 1 }] }]
      [[JSValue.vNum 1]]
      [{ firstRowIdx := 0, firstColIdx := 0, lastRowIdx := 0, lastColIdx := 0 }]
      = some ""
    ∧ ("" : String) ≠ "Choice" := by
  constructor
  · rfl
  · decide

/-! ### Helper lemmas for the extendable path -/

theorem applyChanges_gridData (cols : List Column) (isExtendable : Bool)
    (changes : List Change) (s : GridState) (hne : ¬changes.length = 0) :
    (applyChanges cols isExtendable changes s).gridData
      = (applyChangesData cols isExtendable changes s.gridData).newData := by
  unfold applyChanges
  rw [if_neg hne]
  by_cases h : (applyChangesData cols isExtendable changes s.gridData).dataChanged = true
  · rw [if_pos h]
  · rw [if_neg h]

theorem applyChangesData_true (cols : List Column) (changes : List Change)
    (d : GridData) :
    (applyChangesData cols true changes d).newData
      = extendablePost cols (applyFold cols true changes d).newData := rfl

theorem extendTo_rowsWF {cols : List Column} {d : GridData}
    (h : RowsWF cols.length d) (k : ℕ) :
    RowsWF cols.length (extendTo cols.length d k) := by
  intro row hrow
  rcases List.mem_append.mp hrow with hmem | hmem
  · exact h row hmem
  · rw [List.eq_of_mem_replicate hmem]
    exact List.length_replicate _ _

theorem extendTo_length_ge (numCols : ℕ) (d : GridData) (k : ℕ) :
    d.length ≤ (extendTo numCols d k).length := by
  unfold extendTo
  rw [List.length_append]
  omega

/-- The extendable variant of the body, with the skip test gone and the
grow step normalised. -/
theorem applyChangeBody_true (cols : List Column) (m : ℕ) (acc : ApplyResult)
    (ch : Change) (ci : ℕ) (hn : ¬ch.rowId < 0) :
    applyChangeBody cols true m acc ch ci =
      (let grown := if (m : ℤ) ≤ ch.rowId then
          extendTo cols.length acc.newData (ch.rowId.toNat + 1)
        else acc.newData
       let pv := getCellDataByType (colAt cols ci).type ch.previousCell
       let nv := getCellDataByType (colAt cols ci).type ch.newCell
       if jsStrictEq pv nv then
         ⟨grown, acc.diff, acc.dataChanged || decide (acc.newData.length < grown.length)⟩
       else ⟨setCell grown ch.rowId.toNat ci nv,
         acc.diff ++ [⟨ch.rowId, ch.columnId, pv, nv⟩], true⟩) := by
  unfold applyChangeBody
  rw [if_neg hn, if_neg (by simp)]
  simp only [eq_self_iff_true, true_and]

theorem applyChange_rowsWF (cols : List Column) (isExtendable : Bool) (m : ℕ)
    (acc : ApplyResult) (ch : Change) (h : RowsWF cols.length acc.newData) :
    RowsWF cols.length (applyChange cols isExtendable m acc ch).newData := by
  cases hcl : columnLookup cols ch.columnId with
  | none => rw [applyChange_none _ _ _ hcl]; exact h
  | some ci =>
    rw [applyChange_some _ _ _ hcl]
    by_cases hn : ch.rowId < 0
    · rw [applyChangeBody_neg _ _ _ _ _ hn]; exact h
    have hci := columnLookup_lt_length hcl
    cases isExtendable with
    | false =>
      by_cases hs : (m : ℤ) ≤ ch.rowId
      · rw [applyChangeBody_skip _ _ _ hn hs]; exact h
      cases hje : jsStrictEq (getCellDataByType (colAt cols ci).type ch.previousCell)
        (getCellDataByType (colAt cols ci).type ch.newCell) with
      | true => rw [applyChangeBody_false_eq _ hn (by omega) hje]; exact h
      | false =>
        rw [applyChangeBody_false_ne _ hn (by omega) hje]
        exact rowsWF_setCell h hci
    | true =>
      rw [applyChangeBody_true _ _ _ _ _ hn]
      dsimp only
      have hgwf : RowsWF cols.length (if (m : ℤ) ≤ ch.rowId then
          extendTo cols.length acc.newData (ch.rowId.toNat + 1) else acc.newData) := by
        split
        · exact extendTo_rowsWF h _
        · exact h
      split
      · exact hgwf
      · exact rowsWF_setCell hgwf hci

theorem applyChange_length_ge (cols : List Column) (isExtendable : Bool) (m : ℕ)
    (acc : ApplyResult) (ch : Change) :
    acc.newData.length ≤ (applyChange cols isExtendable m acc ch).newData.length := by
  cases hcl : columnLookup cols ch.columnId with
  | none => rw [applyChange_none _ _ _ hcl]
  | some ci =>
    rw [applyChange_some _ _ _ hcl]
    by_cases hn : ch.rowId < 0
    · rw [applyChangeBody_neg _ _ _ _ _ hn]
    cases isExtendable with
    | false =>
      by_cases hs : (m : ℤ) ≤ ch.rowId
      · rw [applyChangeBody_skip _ _ _ hn hs]
      cases hje : jsStrictEq (getCellDataByType (colAt cols ci).type ch.previousCell)
        (getCellDataByType (colAt cols ci).type ch.newCell) with
      | true => rw [applyChangeBody_false_eq _ hn (by omega) hje]
      | false =>
        rw [applyChangeBody_false_ne _ hn (by omega) hje]
        dsimp only
        rw [setCell_length]
    | true =>
      rw [applyChangeBody_true _ _ _ _ _ hn]
      dsimp only
      have hg : acc.newData.length ≤ (if (m : ℤ) ≤ ch.rowId then
          extendTo cols.length acc.newData (ch.rowId.toNat + 1) else acc.newData).length := by
        split
        · exact extendTo_length_ge _ _ _
        · exact le_refl _
      split
      · exact hg
      · dsimp only
        rw [setCell_length]
        exact hg

theorem applyFold_rowsWF (cols : List Column) (isExtendable : Bool)
    (changes : List Change) (d : GridData) (h : RowsWF cols.length d) :
    RowsWF cols.length (applyFold cols isExtendable changes d).newData := by
  unfold applyFold
  generalize hb : (⟨d, [], false⟩ : ApplyResult) = acc
  have hacc : RowsWF cols.length acc.newData := by rw [← hb]; exact h
  clear hb h
  induction changes generalizing acc with
  | nil => exact hacc
  | cons ch t ih =>
    simp only [List.foldl_cons]
    exact ih _ (applyChange_rowsWF _ _ _ _ _ hacc)

theorem applyFold_length_ge (cols : List Column) (isExtendable : Bool)
    (changes : List Change) (d : GridData) :
    d.length ≤ (applyFold cols isExtendable changes d).newData.length := by
  unfold applyFold
  generalize hg : d.length = n
  have hstart : n ≤ (⟨d, [], false⟩ : ApplyResult).newData.length := by
    rw [← hg]
  generalize hb : (⟨d, [], false⟩ : ApplyResult) = acc
  rw [hb] at hstart
  clear hb hg
  induction changes generalizing acc with
  | nil => exact hstart
  | cons ch t ih =>
    simp only [List.foldl_cons]
    exact ih _ (le_trans hstart (applyChange_length_ge _ _ _ _ _))

theorem popRev_ne_nil {l : GridData} (h : l ≠ []) : popRev l ≠ [] := by
  induction l with
  | nil => exact absurd rfl h
  | cons r tail ih =>
    cases tail with
    | nil => simp [popRev]
    | cons s rest =>
      by_cases hrt : rowTruthy r = true
      · simp [popRev, hrt]
      · rw [show popRev (r :: s :: rest) = popRev (s :: rest) by
          simp [popRev, hrt]]
        exact ih (by simp)

theorem popRev_subset {l : GridData} : ∀ x ∈ popRev l, x ∈ l := by
  induction l with
  | nil => intro x hx; simp [popRev] at hx
  | cons r tail ih =>
    cases tail with
    | nil => intro x hx; simpa [popRev] using hx
    | cons s rest =>
      by_cases hrt : rowTruthy r = true
      · simp [popRev, hrt]
      · rw [show popRev (r :: s :: rest) = popRev (s :: rest) by
          simp [popRev, hrt]]
        intro x hx
        exact List.mem_cons_of_mem _ (ih x hx)

theorem popRev_cases (l : GridData) :
    popRev l = [] ∨ ∃ x t, popRev l = x :: t ∧ (rowTruthy x = true ∨ t = []) := by
  induction l with
  | nil => left; rfl
  | cons r tail ih =>
    cases tail with
    | nil => right; exact ⟨r, [], rfl, Or.inr rfl⟩
    | cons s rest =>
      by_cases hrt : rowTruthy r = true
      · right
        exact ⟨r, s :: rest, by simp [popRev, hrt], Or.inl hrt⟩
      · rw [show popRev (r :: s :: rest) = popRev (s :: rest) by
          simp [popRev, hrt]]
        exact ih

theorem rowTruthy_nullRow (cols : List Column) :
    rowTruthy (cols.map fun _ => JSValue.vNull) = false := by
  induction cols with
  | nil => rfl
  | cons c t ih =>
    simp only [List.map_cons, rowTruthy, List.any_cons, JSValue.truthy, Bool.false_or]
    exact ih

theorem extendablePost_rowsWF {cols : List Column} {d : GridData}
    (h : RowsWF cols.length d) : RowsWF cols.length (extendablePost cols d) := by
  unfold extendablePost
  cases hy : popRev d.reverse with
  | nil =>
    show RowsWF cols.length ([] : GridData)
    intro row hrow
    simp at hrow
  | cons x t =>
    have hsub : ∀ row ∈ x :: t, row.length = cols.length := by
      intro row hrow
      have hmd : row ∈ d.reverse := popRev_subset row (hy ▸ hrow)
      exact h row (List.mem_reverse.mp hmd)
    show RowsWF cols.length (if rowTruthy x = true then
      (x :: t).reverse ++ [cols.map fun _ => JSValue.vNull] else (x :: t).reverse)
    split
    · intro row hrow
      rcases List.mem_append.mp hrow with hmem | hmem
      · exact hsub row (List.mem_reverse.mp hmem)
      · rw [List.mem_singleton.mp hmem]
        exact List.length_map _ _
    · intro row hrow
      exact hsub row (List.mem_reverse.mp hrow)

/-- The extendable post-processing always leaves exactly one trailing
all-falsy row on a non-empty grid. -/
theorem extendablePost_trailing (cols : List Column) {d : GridData} (hne : d ≠ []) :
    trailingEmptyCount (extendablePost cols d) = 1 := by
  have hrne : d.reverse ≠ [] := by simpa using hne
  rcases popRev_cases d.reverse with h0 | ⟨x, t, hy, hor⟩
  · exact absurd h0 (popRev_ne_nil hrne)
  · unfold extendablePost
    rw [hy]
    show trailingEmptyCount (if rowTruthy x = true then
      (x :: t).reverse ++ [cols.map fun _ => JSValue.vNull] else (x :: t).reverse) = 1
    by_cases hx : rowTruthy x = true
    · rw [if_pos hx]
      unfold trailingEmptyCount
      rw [List.reverse_append, List.reverse_reverse]
      simp only [List.reverse_singleton, List.singleton_append, List.takeWhile_cons]
      rw [rowTruthy_nullRow]
      simp only [Bool.not_false, if_true, hx, Bool.not_true, if_false]
      rfl
    · rw [if_neg hx]
      have ht : t = [] := hor.resolve_left hx
      subst ht
      have hxf : rowTruthy x = false := by
        cases hb : rowTruthy x
        · rfl
        · exact absurd hb hx
      unfold trailingEmptyCount
      simp [List.takeWhile_cons, hxf]

theorem applyChangesData_rowsWF (cols : List Column) (isExtendable : Bool)
    (changes : List Change) (d : GridData) (h : RowsWF cols.length d) :
    RowsWF cols.length (applyChangesData cols isExtendable changes d).newData := by
  cases isExtendable with
  | false =>
    rw [applyChangesData_false]
    exact applyFold_rowsWF cols false changes d h
  | true =>
    rw [applyChangesData_true]
    exact extendablePost_rowsWF (applyFold_rowsWF cols true changes d h)

theorem applyChanges_state_rowsWF (cols : List Column) (isExtendable : Bool)
    (changes : List Change) (s : GridState) (h : RowsWF cols.length s.gridData) :
    RowsWF cols.length (applyChanges cols isExtendable changes s).gridData := by
  by_cases hne : changes.length = 0
  · unfold applyChanges
    rw [if_pos hne]
    exact h
  · rw [applyChanges_gridData cols isExtendable changes s hne]
    exact applyChangesData_rowsWF cols isExtendable changes s.gridData h

/-! ### Claim C7 -/

/-- C7: when every row of the 2-D data array has length equal to the number
of columns, every data-updating operation — `applyChanges`,
`handleUndoChanges`, `handleRedoChanges`, and `handlePaste` — preserves
that property. -/
theorem row_length_matches_column_count (cols : List Column) (isExtendable : Bool)
    (changes : List Change) (pastedText : String) (selectedRange : List SelRange)
    (s : GridState) (hwf : RowsWF cols.length s.gridData) :
    RowsWF cols.length (applyChanges cols isExtendable changes s).gridData
    ∧ RowsWF cols.length (handleUndoChanges cols s).gridData
    ∧ RowsWF cols.length (handleRedoChanges cols s).gridData
    ∧ RowsWF cols.length (handlePaste cols isExtendable pastedText selectedRange s).gridData := by
  refine ⟨applyChanges_state_rowsWF cols isExtendable changes s hwf, ?_, ?_, ?_⟩
  · unfold handleUndoChanges
    by_cases hg : s.historyIndex < 0
    · rw [if_pos hg]
      exact hwf
    · rw [if_neg hg]
      exact writeAll_rowsWF rfl _ _ hwf
  · unfold handleRedoChanges
    by_cases hg : (s.history.length : ℤ) ≤ s.historyIndex + 1
    · rw [if_pos hg]
      exact hwf
    · rw [if_neg hg]
      exact writeAll_rowsWF rfl _ _ hwf
  · unfold handlePaste
    cases hr : selectedRange.head? with
    | none => exact hwf
    | some r =>
      show RowsWF cols.length (if (parsePlainClipboard pastedText).length = 0 then s
        else applyChanges cols isExtendable
          (buildPasteChanges cols isExtendable r s.gridData
            (parsePlainClipboard pastedText)) s).gridData
      by_cases hp : (parsePlainClipboard pastedText).length = 0
      · rw [if_pos hp]
        exact hwf
      · rw [if_neg hp]
        exact applyChanges_state_rowsWF cols isExtendable _ s hwf

/-- Witness for C7: pasting two rows into an extendable one-column grid
keeps all rows at length one. -/
theorem row_length_matches_column_count_witness :
    RowsWF 1 (handlePaste [{ columnId := "a", title := "A", type := .text }] true
      "p\nq" [{ firstRowIdx := 1, firstColIdx := 0, lastRowIdx := 1, lastColIdx := 0 }]
      (initialState [[JSValue.vStr "x"]])).gridData :=
  (row_length_matches_column_count [{ columnId := "a", title := "A", type := .text }]
    true [] "p\nq"
    [{ firstRowIdx := 1, firstColIdx := 0, lastRowIdx := 1, lastColIdx := 0 }]
    (initialState [[JSValue.vStr "x"]]) (by decide)).2.2.2

/-! ### Claim C8 -/

/-- C8 (amended): when `isExtendable` is true, after every `applyChanges`
call *with a non-empty change batch* on a non-empty data array, the
resulting data array ends with exactly one row whose entries are all falsy,
and no further all-falsy row precedes it at the end of the array
(`trailingEmptyCount = 1`).  A call with an empty batch returns before the
trailing-row normalisation and does not establish the property. -/
theorem extendable_keeps_one_trailing_blank_row (cols : List Column)
    (changes : List Change) (s : GridState) (hne : ¬changes.length = 0)
    (hdata : s.gridData ≠ []) :
    trailingEmptyCount (applyChanges cols true changes s).gridData = 1 := by
  rw [applyChanges_gridData cols true changes s hne, applyChangesData_true]
  apply extendablePost_trailing
  intro hcon
  have hge := applyFold_length_ge cols true changes s.gridData
  rw [hcon] at hge
  simp at hge
  exact hdata hge

/-- Witness for C8: filling the blank row of `[["x"], [blank]]` appends a
fresh blank row, leaving exactly one trailing blank. -/
theorem extendable_keeps_one_trailing_blank_row_witness :
    trailingEmptyCount (applyChanges [{ columnId := "a", title := "A", type := .text }]
      true
      [{ rowId := 1, columnId := "a", previousCell := { text := some "" },
         newCell := { text := some "y" } }]
      (initialState [[JSValue.vStr "x"], [JSValue.vNull]])).gridData = 1 :=
  extendable_keeps_one_trailing_blank_row
    [{ columnId := "a", title := "A", type := .text }]
    [{ rowId := 1, columnId := "a", previousCell := { text := some "" },
       newCell := { text := some "y" } }]
    (initialState [[JSValue.vStr "x"], [JSValue.vNull]]) (by decide) (by decide)

/-- Counterexample to C8 as stated: `applyChanges` with an empty batch
returns immediately, so a non-empty grid without a trailing blank row stays
without one. -/
theorem extendable_keeps_one_trailing_blank_row_counterexample :
    (applyChanges [{ columnId := "a", title := "A", type := .text }] true []
      (initialState [[JSValue.vStr "x"]])).gridData = [[JSValue.vStr "x"]]
    ∧ trailingEmptyCount [[JSValue.vStr "x"]] ≠ 1 := by
  decide

instance (cols : List Column) (ch : Change) (r c : ℕ) :
    Decidable (AddressedBy cols ch r c) :=
  inferInstanceAs (Decidable (_ ∧ _))

theorem applyChange_frame (cols : List Column) (m : ℕ) (acc : ApplyResult)
    (ch : Change) (r c : ℕ) (hun : ¬AddressedBy cols ch r c) :
    getCell (applyChange cols false m acc ch).newData r c = getCell acc.newData r c := by
  cases hcl : columnLookup cols ch.columnId with
  | none => rw [applyChange_none _ _ _ hcl]
  | some ci =>
    rw [applyChange_some _ _ _ hcl]
    by_cases hn : ch.rowId < 0
    · rw [applyChangeBody_neg _ _ _ _ _ hn]
    by_cases hs : (m : ℤ) ≤ ch.rowId
    · rw [applyChangeBody_skip _ _ _ hn hs]
    cases hje : jsStrictEq (getCellDataByType (colAt cols ci).type ch.previousCell)
      (getCellDataByType (colAt cols ci).type ch.newCell) with
    | true => rw [applyChangeBody_false_eq _ hn (by omega) hje]
    | false =>
      rw [applyChangeBody_false_ne _ hn (by omega) hje]
      apply getCell_setCell_ne
      intro hcon
      apply hun
      constructor
      · have h1 := hcon.1
        omega
      · rw [hcon.2]
        exact hcl

theorem applyChange_length_false (cols : List Column) (m : ℕ) (acc : ApplyResult)
    (ch : Change) :
    (applyChange cols false m acc ch).newData.length = acc.newData.length := by
  cases hcl : columnLookup cols ch.columnId with
  | none => rw [applyChange_none _ _ _ hcl]
  | some ci =>
    rw [applyChange_some _ _ _ hcl]
    by_cases hn : ch.rowId < 0
    · rw [applyChangeBody_neg _ _ _ _ _ hn]
    by_cases hs : (m : ℤ) ≤ ch.rowId
    · rw [applyChangeBody_skip _ _ _ hn hs]
    cases hje : jsStrictEq (getCellDataByType (colAt cols ci).type ch.previousCell)
      (getCellDataByType (colAt cols ci).type ch.newCell) with
    | true => rw [applyChangeBody_false_eq _ hn (by omega) hje]
    | false =>
      rw [applyChangeBody_false_ne _ hn (by omega) hje]
      exact setCell_length _ _ _ _

/-- A change that resolves to no column, has a negative row id, or lies at
or beyond the original row count is a complete no-op of the fold step. -/
theorem applyChange_invalid (cols : List Column) (m : ℕ) (acc : ApplyResult)
    (ch : Change)
    (h : columnLookup cols ch.columnId = none ∨ ch.rowId < 0 ∨ (m : ℤ) ≤ ch.rowId) :
    applyChange cols false m acc ch = acc := by
  cases hcl : columnLookup cols ch.columnId with
  | none => exact applyChange_none _ _ _ hcl
  | some ci =>
    rw [applyChange_some _ _ _ hcl]
    by_cases hn : ch.rowId < 0
    · exact applyChangeBody_neg _ _ _ _ _ hn
    · rcases h with hc | hc | hc
      · rw [hcl] at hc
        cases hc
      · exact absurd hc hn
      · exact applyChangeBody_skip _ _ _ hn hc

/-! ### Claim C9 -/

/-- C9: when `isExtendable` is false, `applyChanges` (i) keeps the number of
rows, (ii) leaves every cell whose position is not addressed by some change
of the batch unchanged, and (iii) completely ignores a change whose
`columnId` matches no column, whose `rowId` is negative, or whose `rowId`
lies at or beyond the last existing row — deleting such a change from the
batch does not alter the result. -/
theorem nonextendable_frame_and_ignores (cols : List Column)
    (changes : List Change) (d : GridData) :
    ((applyChangesData cols false changes d).newData.length = d.length)
    ∧ (∀ r c, (∀ ch ∈ changes, ¬AddressedBy cols ch r c) →
        getCell (applyChangesData cols false changes d).newData r c = getCell d r c)
    ∧ (∀ pre post ch,
        (columnLookup cols ch.columnId = none ∨ ch.rowId < 0 ∨
          (d.length : ℤ) ≤ ch.rowId) →
        applyChangesData cols false (pre ++ ch :: post) d
          = applyChangesData cols false (pre ++ post) d) := by
  refine ⟨?_, ?_, ?_⟩
  · rw [applyChangesData_false]
    unfold applyFold
    generalize hb : (⟨d, [], false⟩ : ApplyResult) = acc
    have hacc : acc.newData.length = d.length := by rw [← hb]
    clear hb
    induction changes generalizing acc with
    | nil => exact hacc
    | cons ch t ih =>
      simp only [List.foldl_cons]
      exact ih _ (by rw [applyChange_length_false]; exact hacc)
  · intro r c hun
    rw [applyChangesData_false]
    unfold applyFold
    generalize hb : (⟨d, [], false⟩ : ApplyResult) = acc
    have hacc : getCell acc.newData r c = getCell d r c := by rw [← hb]
    clear hb
    induction changes generalizing acc with
    | nil => exact hacc
    | cons ch t ih =>
      simp only [List.foldl_cons]
      refine ih (fun x hx => hun x (List.mem_cons_of_mem _ hx)) _ ?_
      rw [applyChange_frame cols d.length acc ch r c (hun ch (List.mem_cons_self _ _))]
      exact hacc
  · intro pre post ch h
    rw [applyChangesData_false, applyChangesData_false]
    unfold applyFold
    rw [List.foldl_append, List.foldl_cons,
      applyChange_invalid cols d.length _ ch h, ← List.foldl_append]

/-- Witness for C9: a batch touching `(0,0)` together with three invalid
changes leaves `(1,0)` unchanged, keeps two rows, and equals the batch with
the invalid changes removed. -/
theorem nonextendable_frame_and_ignores_witness :
    (applyChangesData [{ columnId := "a", title := "A", type := .text }] false
      [{ rowId := 0, columnId := "a", previousCell := { text := some "x" },
         newCell := { text := some "y" } }]
      [[JSValue.vStr "x"], [JSValue.vStr "z"]]).newData.length = 2
    ∧ getCell (applyChangesData [{ columnId := "a", title := "A", type := .text }] false
        [{ rowId := 0, columnId := "a", previousCell := { text := some "x" },
           newCell := { text := some "y" } }]
        [[JSValue.vStr "x"], [JSValue.vStr "z"]]).newData 1 0 = JSValue.vStr "z"
    ∧ applyChangesData [{ columnId := "a", title := "A", type := .text }] false
        [{ rowId := 2, columnId := "a", previousCell := { text := some "" },
           newCell := { text := some "w" } },
         { rowId := 0, columnId := "a", previousCell := { text := some "x" },
           newCell := { text := some "y" } }]
        [[JSValue.vStr "x"], [JSValue.vStr "z"]]
      = applyChangesData [{ columnId := "a", title := "A", type := .text }] false
        [{ rowId := 0, columnId := "a", previousCell := { text := some "x" },
           newCell := { text := some "y" } }]
        [[JSValue.vStr "x"], [JSValue.vStr "z"]] := by
  refine ⟨?_, ?_, ?_⟩
  · have h := (nonextendable_frame_and_ignores
      [{ columnId := "a", title := "A", type := .text }]
      [{ rowId := 0, columnId := "a", previousCell := { text := some "x" },
         newCell := { text := some "y" } }]
      [[JSValue.vStr "x"], [JSValue.vStr "z"]]).1
    rw [h]
    decide
  · have h := (nonextendable_frame_and_ignores
      [{ columnId := "a", title := "A", type := .text }]
      [{ rowId := 0, columnId := "a", previousCell := { text := some "x" },
         newCell := { text := some "y" } }]
      [[JSValue.vStr "x"], [JSValue.vStr "z"]]).2.1 1 0 (by decide)
    rw [h]
    decide
  · exact (nonextendable_frame_and_ignores
      [{ columnId := "a", title := "A", type := .text }]
      [{ rowId := 0, columnId := "a", previousCell := { text := some "x" },
         newCell := { text := some "y" } }]
      [[JSValue.vStr "x"], [JSValue.vStr "z"]]).2.2 []
      [{ rowId := 0, columnId := "a", previousCell := { text := some "x" },
         newCell := { text := some "y" } }]
      { rowId := 2, columnId := "a", previousCell := { text := some "" },
        newCell := { text := some "w" } }
      (by decide)

end DashReactGrid
